import Mathlib

/-!
Verification of the learning/persistence core of the `kali-preload` daemon.

The development shallowly embeds the relevant parts of
`src/src/state/state.c`, `src/src/daemon/signals.c` and
`src/src/daemon/pause.c`:

* C `int` values become `ℤ` (no arithmetic here ever approaches 2^31, and
  every claim is about small values);
* C `double` values become exact rationals `ℚ`; where the source computes
  `sqrt` the development works with the squared inequality instead;
* the state-file reader is modelled down to the character level of the
  `sscanf` calls it performs;
* I/O outcomes (open/write/fsync/rename) are abstracted into boolean
  environment records, and the modules that are not part of the provided
  sources (the `/proc` scanner `spy.c`, the predictor `prophet.c`, the
  session booster, the seeder, and the `state.h` macros) are modelled from
  the specification, each such definition marked in its doc comment.
-/

namespace Preheat

/-! ## Markov chains (`src/src/state/state.c`, `kp_markov_*`) -/

/-- Modelled from the spec: the `markov_state` macro lives in `state.h`,
which is not among the provided sources.  Spec §3 fixes the joint state of
the pair: 0 = neither endpoint running, 1 = only `a`, 2 = only `b`,
3 = both (`state = (a running ? 1 : 0) + (b running ? 2 : 0)`). -/
def markov_state (aRunning bRunning : Bool) : Fin 4 :=
  match aRunning, bRunning with
  | false, false => 0
  | true,  false => 1
  | false, true  => 2
  | true,  true  => 3

/-- In-memory Markov object (`kp_markov_t`).  The two endpoint pointers are
not part of this record: the operations that the claims mention receive the
endpoints' running status as explicit arguments.  `time_to_leave` is a
`double[4]` in C, modelled as exact rationals; `weight` is `int[4][4]`. -/
structure Markov where
  state : Fin 4
  change_timestamp : ℤ
  time : ℤ
  time_to_leave : Fin 4 → ℚ
  weight : Fin 4 → Fin 4 → ℤ

/-- Model of `kp_markov_state_changed` (state.c:418-439).  `now` is `kp_state->time`;
`aRunning`/`bRunning` feed the `markov_state` macro.  The early return when
`change_timestamp == kp_state->time`, the `g_return_if_fail(old != new)`
bail-out, the two weight increments and the incremental-mean update of
`time_to_leave` are reproduced verbatim (C double division becomes exact
division in `ℚ`). -/
def kp_markov_state_changed (now : ℤ) (aRunning bRunning : Bool) (m : Markov) : Markov :=
  if m.change_timestamp = now then m
  else
    let old_state := m.state
    let new_state := markov_state aRunning bRunning
    if old_state = new_state then m
    else
      let w1 : Fin 4 → Fin 4 → ℤ := fun i j =>
        if i = old_state ∧ j = old_state then m.weight i j + 1 else m.weight i j
      let ttl : Fin 4 → ℚ := fun s =>
        if s = old_state then
          m.time_to_leave s
            + (((now - m.change_timestamp : ℤ) : ℚ) - m.time_to_leave s)
              / ((w1 old_state old_state : ℤ) : ℚ)
        else m.time_to_leave s
      let w2 : Fin 4 → Fin 4 → ℤ := fun i j =>
        if i = old_state ∧ j = new_state then w1 i j + 1 else w1 i j
      { m with state := new_state, change_timestamp := now,
               time_to_leave := ttl, weight := w2 }

/-! ## Correlation (`kp_markov_correlation`, state.c:530-551)

The C function computes, in `double` arithmetic,
`corr = (t*ab - a*b) / sqrt(a*b*(t-a)*(t-b))` unless one of the guards
makes it 0, and then executes `g_assert(fabs(corr) <= 1.00001)`.
The development works with exact integer/rational arithmetic: `corrSq`
is the squared correlation, and the assertion is expressed by squaring
both sides (`|x| ≤ c ↔ x² ≤ c²` for `c > 0`, valid whenever the
denominator is positive; a non-positive denominator makes the C value
`inf`/`NaN`, which fails `fabs(corr) <= 1.00001` as well). -/

/-- Numerator `t*ab - a*b` of the correlation. -/
def corr_num (t a b ab : ℤ) : ℤ := t * ab - a * b

/-- Squared denominator `a*b*((t-a)*(t-b))` of the correlation. -/
def corr_den (t a b : ℤ) : ℤ := a * b * ((t - a) * (t - b))

/-- Guard of `kp_markov_correlation`: `a == 0 || a == t || b == 0 || b == t`. -/
def corr_is_zero (t a b : ℤ) : Bool :=
  decide (a = 0) || decide (a = t) || decide (b = 0) || decide (b = t)

/-- Squared value of `kp_markov_correlation` in exact arithmetic. -/
def corrSq (t a b ab : ℤ) : ℚ :=
  if corr_is_zero t a b then 0
  else ((corr_num t a b ab) ^ 2 : ℤ) / ((corr_den t a b : ℤ) : ℚ)

/-- The assertion `g_assert(fabs(correlation) <= 1.00001)` of
`kp_markov_correlation`, in exact arithmetic: it holds when the guard
makes the correlation 0, or when the squared denominator is positive and
`num² ≤ 1.00001² · den` (written integrally as
`num² · 100000² ≤ 100001² · den`). -/
def correlation_assert_holds (t a b ab : ℤ) : Bool :=
  corr_is_zero t a b ||
    (decide (0 < corr_den t a b) &&
      decide ((corr_num t a b ab) ^ 2 * 100000 ^ 2 ≤ 100001 ^ 2 * corr_den t a b))

/-! ## Pause state (`src/src/daemon/pause.c`) -/

/-- The daemon-side pause state (`pause_state` in pause.c, after
initialisation): `active` flag plus expiry timestamp (`0` = until reboot,
`-1` when inactive). -/
structure PauseState where
  active : Bool
  expiry : ℤ
deriving DecidableEq

/-- Model of `kp_pause_clear` (pause.c:220-231): deactivates the pause
(the on-disk pause file unlink is external I/O). -/
def kp_pause_cleared : PauseState := ⟨false, -1⟩

/-- Model of `kp_pause_is_active` (pause.c:137-165) for an initialised pause state:
returns whether preloading is paused and the (possibly auto-cleared) new
pause state.  `wallNow` is `time(NULL)`. -/
def kp_pause_is_active (wallNow : ℤ) (p : PauseState) : Bool × PauseState :=
  if p.active = false then (false, p)
  else if p.expiry = 0 then (true, p)
  else if p.expiry ≤ wallNow then (false, kp_pause_cleared)
  else (true, p)

/-! ## Tick scheduler (`kp_state_tick` / `kp_state_tick2`, state.c:1944-1993) -/

/-- Inputs of one firing of `kp_state_tick`.  `doscan`, `dopredict` and
`cycle` come from the configuration; `wallNow` is the wall-clock time at
the pause check.  Modelled from the spec: the scanner (`kp_spy_scan`),
predictor (`kp_prophet_predict`) and session booster
(`kp_session_preload_top_apps`) are in modules not among the provided
sources; per spec §4.2/§4.4 only the predictor and the session booster
issue `readahead` calls, whose counts are taken as the abstract inputs
`predictor_readaheads` / `session_readaheads`. -/
structure TickEnv where
  doscan : Bool
  dopredict : Bool
  cycle : ℤ
  wallNow : ℤ
  in_boot_window : Bool
  predictor_readaheads : ℕ
  session_readaheads : ℕ

/-- Observable outcome of one firing of `kp_state_tick`. -/
structure TickResult where
  time : ℤ
  dirty : Bool
  model_dirty : Bool
  pause : PauseState
  predictor_invoked : Bool
  readahead_calls : ℕ
deriving DecidableEq

/-- Model of `kp_state_tick` (state.c:1960-1993): scan (if `doscan`, setting both
dirty flags), then — only if `dopredict` and the pause check passes —
session boost and prediction; finally `time += cycle/2` (C truncating
division, `Int.tdiv`). -/
def kp_state_tick_model (env : TickEnv) (time : ℤ) (dirty model_dirty : Bool)
    (p : PauseState) : TickResult :=
  let dirty1 := if env.doscan then true else dirty
  let model_dirty1 := if env.doscan then true else model_dirty
  let pauseCheck := if env.dopredict then kp_pause_is_active env.wallNow p else (false, p)
  let invoked := env.dopredict && !pauseCheck.1
  let calls :=
    if invoked then
      (if env.in_boot_window then env.session_readaheads else 0) + env.predictor_readaheads
    else 0
  { time := time + Int.tdiv env.cycle 2
    dirty := dirty1
    model_dirty := model_dirty1
    pause := pauseCheck.2
    predictor_invoked := invoked
    readahead_calls := calls }

/-- Observable outcome of one firing of `kp_state_tick2`. -/
structure Tick2Result where
  time : ℤ
  model_dirty : Bool
  updater_ran : Bool
deriving DecidableEq

/-- Model of `kp_state_tick2` (state.c:1944-1958): run the model updater iff
`model_dirty` (clearing the flag), then `time += (cycle+1)/2`. -/
def kp_state_tick2_model (cycle : ℤ) (time : ℤ) (model_dirty : Bool) : Tick2Result :=
  { time := time + Int.tdiv (cycle + 1) 2
    model_dirty := false
    updater_ran := model_dirty }

/-! ## Character-level model of the `sscanf` conversions used by the reader

The state-file reader (`read_state` and its per-tag helpers) parses each
line with `sscanf`.  The conversions that occur are `%d`, `%lu`, `%lf`/`%lg`,
`%s` (with or without a width), `%x` and `%[^\n]`.  They are modelled on
`List Char` with C semantics: skip leading white space (except `%[`),
consume the longest valid prefix, fail when no prefix matches.
Not modelled (never produced by the writer, irrelevant to every claim):
hexadecimal floats, `inf`/`nan`, out-of-range saturation, and the
`FILELEN` width cap on `%s` path fields (`FILELEN` lives in the missing
`common.h`). -/

/-- C `isspace` on the execution character set. -/
def isCSpace (c : Char) : Bool :=
  c.toNat = 32 || c.toNat = 9 || c.toNat = 10 || c.toNat = 13 ||
    c.toNat = 11 || c.toNat = 12

/-- Decimal digit test (`'0'..'9'`). -/
def isDigitChar (c : Char) : Bool := 48 ≤ c.toNat && c.toNat ≤ 57

/-- Skip leading white space, as every `sscanf` conversion except `%[` does. -/
def dropWs (s : List Char) : List Char := s.dropWhile isCSpace

/-- Value of a digit string (most significant first). -/
def digitsToNat (l : List Char) : ℕ := l.foldl (fun acc c => 10 * acc + (c.toNat - 48)) 0

/-- Optional sign, as accepted by `strtol`/`strtoul`/`strtod`. -/
def scanSign (s : List Char) : Bool × List Char :=
  match s with
  | c :: r => if c = '-' then (true, r) else if c = '+' then (false, r) else (false, c :: r)
  | [] => (false, [])

/-- Model of `%d`: optional sign followed by at least one decimal digit. -/
def scanInt (s : List Char) : Option (ℤ × List Char) :=
  let sg := scanSign (dropWs s)
  let s2 := sg.2
  let ds := s2.takeWhile isDigitChar
  if ds.isEmpty then none
  else
    let v : ℤ := digitsToNat ds
    some (if sg.1 then -v else v, s2.dropWhile isDigitChar)

/-- Model of `%lu` (`strtoul`): like `%d` but the value wraps into `[0, 2^64)`
(a leading `-` is accepted and negates modulo `2^64`). -/
def scanULong (s : List Char) : Option (ℤ × List Char) :=
  (scanInt s).map fun p => (p.1 % (2 ^ 64 : ℤ), p.2)

/-- Exponent part of `%lf`/`%lg` (`strtod`): `e`/`E`, optional sign, at
least one digit; if no digit follows, `strtod` leaves the exponent
unconsumed (the conversion still succeeds on the mantissa alone). -/
def scanExp (s : List Char) : Option (ℤ × List Char) :=
  match s with
  | c :: r =>
    if c = 'e' ∨ c = 'E' then
      let sg := scanSign r
      let eds := sg.2.takeWhile isDigitChar
      if eds.isEmpty then none
      else some ((if sg.1 then -(digitsToNat eds : ℤ) else (digitsToNat eds : ℤ)),
                 sg.2.dropWhile isDigitChar)
    else none
  | [] => none

/-- Model of `%lf` / `%lg` (`strtod`, decimal forms): optional sign, digits with an
optional fractional part (at least one digit overall), optional exponent.
The value is exact in `ℚ` (no double rounding is modelled; no claim
depends on values that round). -/
def scanDouble (s : List Char) : Option (ℚ × List Char) :=
  let sg := scanSign (dropWs s)
  let s2 := sg.2
  let ipart := s2.takeWhile isDigitChar
  let s3 := s2.dropWhile isDigitChar
  let fp : List Char × List Char :=
    match s3 with
    | c :: r => if c = '.' then (r.takeWhile isDigitChar, r.dropWhile isDigitChar) else ([], c :: r)
    | [] => ([], [])
  if ipart.isEmpty ∧ fp.1.isEmpty then none
  else
    let mant : ℚ := (digitsToNat ipart : ℚ) + (digitsToNat fp.1 : ℚ) / ((10 : ℚ) ^ fp.1.length)
    let ep : ℤ × List Char :=
      match scanExp fp.2 with
      | some p => p
      | none => (0, fp.2)
    some ((if sg.1 then -(mant * (10 : ℚ) ^ ep.1) else mant * (10 : ℚ) ^ ep.1), ep.2)

/-- Model of `%s` (optionally with a width, as in the `%31s` tag scan): skip white
space, then read up to `width` non-white-space characters (at least one). -/
def scanStr (width : Option ℕ) (s : List Char) : Option (List Char × List Char) :=
  let s1 := dropWs s
  let tok :=
    match width with
    | some w => (s1.takeWhile (fun c => !isCSpace c)).take w
    | none => s1.takeWhile (fun c => !isCSpace c)
  if tok.isEmpty then none else some (tok, s1.drop tok.length)

/-- Model of `n` consecutive `%lg` conversions (the four dwell times of a `MARKOV`
line, read one at a time with `%n` cursor advance in C). -/
def scanQList : ℕ → List Char → Option (List ℚ × List Char)
  | 0, s => some ([], s)
  | n + 1, s =>
    (scanDouble s).bind fun p =>
      (scanQList n p.2).map fun q => (p.1 :: q.1, q.2)

/-- Model of `n` consecutive `%d` conversions (the 16 weights of a `MARKOV` line). -/
def scanZList : ℕ → List Char → Option (List ℤ × List Char)
  | 0, s => some ([], s)
  | n + 1, s =>
    (scanInt s).bind fun p =>
      (scanZList n p.2).map fun q => (p.1 :: q.1, q.2)

/-- Model of `g_filename_from_uri`, restricted to the URIs this
development feeds it: accepts `file://<absolute path>` with an empty host
component and no percent-escapes; anything else fails, which in C fills
`rc->err` and aborts the whole load. -/
def fileUriToPath (s : List Char) : Option (List Char) :=
  if s.take 7 = "file://".toList then
    match s.drop 7 with
    | '/' :: r => some ('/' :: r)
    | _ => none
  else none

/-! ## In-memory objects built by the loader -/

/-- Modelled from the spec: the `pool` enum (`POOL_PRIORITY`,
`POOL_OBSERVATION`) is declared in the missing `state.h`.  The claims
depend only on *which* constant is stored, never on its numeral, so the
two are fixed to distinct arbitrary integers. -/
def POOL_OBSERVATION : ℤ := 1

/-- Modelled from the spec: see `POOL_OBSERVATION`. -/
def POOL_PRIORITY : ℤ := 0

/-- Registered `kp_map_t` as reconstructed by the loader. -/
structure MapRec where
  seq : ℤ
  update_time : ℤ
  offset : ℤ
  length : ℤ
  path : List Char
  refcount : ℤ
deriving DecidableEq

/-- Registered `kp_exe_t` as reconstructed by the loader (the fields the
claims touch; `exemaps`/`markovs` are kept in flat side lists keyed by
`seq`, mirroring the C sets without pointers). -/
structure ExeRec where
  seq : ℤ
  path : List Char
  size : ℤ
  time : ℤ
  update_time : ℤ
  change_timestamp : ℤ
  running_timestamp : ℤ
  pool : ℤ
  weighted_launches : ℚ
  raw_launches : ℤ
  total_duration : ℤ
deriving DecidableEq

/-- Model of `kp_exemap_t` flattened to its owning exe's and its map's `seq`. -/
structure ExeMapRec where
  exeSeq : ℤ
  mapSeq : ℤ
  prob : ℚ
deriving DecidableEq

/-- Model of `kp_markov_t` as reconstructed by the loader, keyed by the endpoint
`seq`s.  `read_markov` calls `kp_markov_new(a, b, FALSE)`, which leaves
`state` and `change_timestamp` uninitialised; `state` is overwritten by
`set_markov_state_callback` on load success, `change_timestamp` stays
uninitialised in C and is not modelled.  The placeholder `state := 0` held
before that callback stands for the C garbage value. -/
structure MarkovRec where
  aSeq : ℤ
  bSeq : ℤ
  state : Fin 4
  time : ℤ
  time_to_leave : Fin 4 → ℚ
  weight : Fin 4 → Fin 4 → ℤ
deriving DecidableEq

/-- The global `kp_state` fields the loader populates. -/
structure LoadGlobal where
  time : ℤ
  last_accounting_timestamp : ℤ
  last_running_timestamp : ℤ
  exes : List ExeRec
  maps : List MapRec
  exemaps : List ExeMapRec
  markovs : List MarkovRec
  families : List (List Char × ℤ × List Char)
  exe_seq : ℤ
  map_seq : ℤ
  running_exes : List ℤ
deriving DecidableEq

/-- The reader context `read_context_t`: global state under construction
plus the two per-file index tables `rc.maps` / `rc.exes` (file-local line
index to `seq`), and the pending error (`rc->errmsg` or `rc->err`
flattened into one message). -/
structure ReadCtx where
  g : LoadGlobal
  localMaps : List (ℤ × ℤ)
  localExes : List (ℤ × ℤ)
  errmsg : Option String
deriving DecidableEq

/-! ## Per-tag readers (state.c:927-1187) -/

/-- The `sscanf("%d %d %lu %lu %d %s")` of `read_map`; all six
conversions must succeed. -/
def scanMapLine (s : List Char) : Option (ℤ × ℤ × ℤ × ℤ × ℤ × List Char) :=
  (scanInt s).bind fun p1 =>
  (scanInt p1.2).bind fun p2 =>
  (scanULong p2.2).bind fun p3 =>
  (scanULong p3.2).bind fun p4 =>
  (scanInt p4.2).bind fun p5 =>
  (scanStr none p5.2).map fun p6 => (p1.1, p2.1, p3.1, p4.1, p5.1, p6.1)

/-- Model of `read_map` (state.c:928-966): parse, URI-decode, reject duplicate
file-local index and duplicate `(path, offset, length)` triple, then
`kp_map_ref` the fresh map (registering it with the next `map_seq` and
refcount 1, held by the `rc.maps` table). -/
def read_map_model (rc : ReadCtx) (s : List Char) : ReadCtx :=
  match scanMapLine s with
  | none => { rc with errmsg := some "invalid syntax" }
  | some (i, ut, off, len, _, buf) =>
    match fileUriToPath buf with
    | none => { rc with errmsg := some "invalid uri" }
    | some path =>
      if (rc.localMaps.lookup i).isSome then { rc with errmsg := some "duplicate index" }
      else if rc.g.maps.any (fun m => m.path == path && m.offset == off && m.length == len) then
        { rc with errmsg := some "duplicate object" }
      else
        let seq := rc.g.map_seq + 1
        let mrec : MapRec :=
          { seq := seq, update_time := ut, offset := off, length := len,
            path := path, refcount := 1 }
        { rc with
          g := { rc.g with map_seq := seq, maps := mrec :: rc.g.maps },
          localMaps := (i, seq) :: rc.localMaps }

/-- The fields `read_exe` scans into; C leaves `i`, `update_time`, `time`
and `expansion` uninitialised (every accepted parse overwrites the ones it
uses), `pool` starts at `POOL_OBSERVATION` and the weighted counters at 0. -/
structure ExeFields where
  i : ℤ
  update_time : ℤ
  time : ℤ
  expansion : ℤ
  pool : ℤ
  weighted_launches : ℚ
  raw_launches : ℤ
  total_duration : ℤ
  filebuf : List Char
deriving DecidableEq

/-- Initial values of `read_exe`'s locals (state.c:981-987).  The four
uninitialised `int`s are represented by 0; no accepted parse exposes them. -/
def exeFields0 : ExeFields :=
  { i := 0, update_time := 0, time := 0, expansion := 0,
    pool := POOL_OBSERVATION, weighted_launches := 0,
    raw_launches := 0, total_duration := 0, filebuf := [] }

/-- The common `"%d %d %d %d"` prefix of the three `EXE` formats:
returns how many of the four conversions succeeded, the (partially)
updated fields, and the rest of the input. -/
def scan4ints (f : ExeFields) (s : List Char) : ℕ × ExeFields × List Char :=
  match scanInt s with
  | none => (0, f, s)
  | some p1 =>
    let f1 := { f with i := p1.1 }
    match scanInt p1.2 with
    | none => (1, f1, p1.2)
    | some p2 =>
      let f2 := { f1 with update_time := p2.1 }
      match scanInt p2.2 with
      | none => (2, f2, p2.2)
      | some p3 =>
        let f3 := { f2 with time := p3.1 }
        match scanInt p3.2 with
        | none => (3, f3, p3.2)
        | some p4 => (4, { f3 with expansion := p4.1 }, p4.2)

/-- Model of `sscanf("%d %d %d %d %d %lf %lu %lu %s")` — the 9-field `EXE` format.
Returns the count of successful conversions and the fields as partially
assigned by the scan (C assigns each variable as its conversion
succeeds). -/
def sscanf_exe9 (f : ExeFields) (s : List Char) : ℕ × ExeFields :=
  let t := scan4ints f s
  let f4 := t.2.1
  if t.1 < 4 then (t.1, f4)
  else
    match scanInt t.2.2 with
    | none => (4, f4)
    | some p =>
      let f5 := { f4 with pool := p.1 }
      match scanDouble p.2 with
      | none => (5, f5)
      | some q =>
        let f6 := { f5 with weighted_launches := q.1 }
        match scanULong q.2 with
        | none => (6, f6)
        | some u1 =>
          let f7 := { f6 with raw_launches := u1.1 }
          match scanULong u1.2 with
          | none => (7, f7)
          | some u2 =>
            let f8 := { f7 with total_duration := u2.1 }
            match scanStr none u2.2 with
            | none => (8, f8)
            | some tk => (9, { f8 with filebuf := tk.1 })

/-- Model of `sscanf("%d %d %d %d %d %s")` — the 6-field `EXE` format. -/
def sscanf_exe6 (f : ExeFields) (s : List Char) : ℕ × ExeFields :=
  let t := scan4ints f s
  let f4 := t.2.1
  if t.1 < 4 then (t.1, f4)
  else
    match scanInt t.2.2 with
    | none => (4, f4)
    | some p =>
      let f5 := { f4 with pool := p.1 }
      match scanStr none p.2 with
      | none => (5, f5)
      | some tk => (6, { f5 with filebuf := tk.1 })

/-- Model of `sscanf("%d %d %d %d %s")` — the 5-field `EXE` format. -/
def sscanf_exe5 (f : ExeFields) (s : List Char) : ℕ × ExeFields :=
  let t := scan4ints f s
  let f4 := t.2.1
  if t.1 < 4 then (t.1, f4)
  else
    match scanStr none t.2.2 with
    | none => (4, f4)
    | some tk => (5, { f4 with filebuf := tk.1 })

/-- Result of the format-selection part of `read_exe`. -/
inductive ExeParse where
  | ok (f : ExeFields) : ExeParse
  | synErr : ExeParse
deriving DecidableEq

/-- Format selection of `read_exe` (state.c:989-1018): try the 9-field
format, fall back to 6, then to 5; values assigned by an earlier partial
scan persist into the fallback (the C locals are not reset).  The 5-field
path explicitly resets `pool := POOL_OBSERVATION`. -/
def read_exe_parse (s : List Char) : ExeParse :=
  let r9 := sscanf_exe9 exeFields0 s
  if 9 ≤ r9.1 then .ok r9.2
  else
    let r6 := sscanf_exe6 r9.2 s
    if 6 ≤ r6.1 then .ok r6.2
    else
      let r5 := sscanf_exe5 r6.2 s
      if r5.1 < 5 then .synErr
      else .ok { r5.2 with pool := POOL_OBSERVATION }

/-- Model of `read_exe` (state.c:978-1048): parse, URI-decode, reject duplicate
file-local index and duplicate path, then build the exe exactly as
`kp_exe_new(path, FALSE, NULL)` + the explicit field stores do
(`change_timestamp := -1`, `running_timestamp := -1`), and register it
with the next `exe_seq` and no Markov creation. -/
def read_exe_model (rc : ReadCtx) (s : List Char) : ReadCtx :=
  match read_exe_parse s with
  | .synErr => { rc with errmsg := some "invalid syntax" }
  | .ok f =>
    match fileUriToPath f.filebuf with
    | none => { rc with errmsg := some "invalid uri" }
    | some path =>
      if (rc.localExes.lookup f.i).isSome then { rc with errmsg := some "duplicate index" }
      else if rc.g.exes.any (fun e => e.path == path) then
        { rc with errmsg := some "duplicate object" }
      else
        let seq := rc.g.exe_seq + 1
        let erec : ExeRec :=
          { seq := seq, path := path, size := 0, time := f.time,
            update_time := f.update_time, change_timestamp := -1,
            running_timestamp := -1, pool := f.pool,
            weighted_launches := f.weighted_launches,
            raw_launches := f.raw_launches, total_duration := f.total_duration }
        { rc with
          g := { rc.g with exe_seq := seq, exes := erec :: rc.g.exes },
          localExes := (f.i, seq) :: rc.localExes }

/-- Model of `read_exemap` (state.c:1051-1076): `%d %d %lg`, resolve both
file-local indices, then `kp_exe_map_new` (new exemap with the given
prob,`kp_map_ref` bumping the map's refcount, and `exe->size` grown by
the map's length). -/
def read_exemap_model (rc : ReadCtx) (s : List Char) : ReadCtx :=
  match (scanInt s).bind (fun p1 =>
          (scanInt p1.2).bind fun p2 =>
            (scanDouble p2.2).map fun p3 => (p1.1, p2.1, p3.1)) with
  | none => { rc with errmsg := some "invalid syntax" }
  | some (iexe, imap, prob) =>
    match rc.localExes.lookup iexe, rc.localMaps.lookup imap with
    | some eseq, some mseq =>
      let len := ((rc.g.maps.find? (fun m => m.seq == mseq)).map MapRec.length).getD 0
      { rc with
        g := { rc.g with
          exemaps := ⟨eseq, mseq, prob⟩ :: rc.g.exemaps,
          maps := rc.g.maps.map fun m =>
            if m.seq == mseq then { m with refcount := m.refcount + 1 } else m,
          exes := rc.g.exes.map fun e =>
            if e.seq == eseq then { e with size := e.size + len } else e } }
    | _, _ => { rc with errmsg := some "invalid index" }

/-- Model of `read_markov` (state.c:1079-1138): `%d %d %d`, resolve both indices,
then four `%lg` dwell times and sixteen `%d` weights; on any conversion
failure after the header the freshly created markov is freed again, so
the net effect of a failure is just the error. -/
def read_markov_model (rc : ReadCtx) (s : List Char) : ReadCtx :=
  match (scanInt s).bind (fun p1 =>
          (scanInt p1.2).bind fun p2 =>
            (scanInt p2.2).map fun p3 => (p1.1, p2.1, p3.1, p3.2)) with
  | none => { rc with errmsg := some "invalid syntax" }
  | some (ia, ib, tm, s3) =>
    match rc.localExes.lookup ia, rc.localExes.lookup ib with
    | some aseq, some bseq =>
      (match scanQList 4 s3 with
       | none => { rc with errmsg := some "invalid syntax" }
       | some (ttls, s4) =>
         match scanZList 16 s4 with
         | none => { rc with errmsg := some "invalid syntax" }
         | some (ws, _) =>
           let mrec : MarkovRec :=
             { aSeq := aseq, bSeq := bseq, state := 0, time := tm,
               time_to_leave := fun i => ttls.getD i.val 0,
               weight := fun i j => ws.getD (4 * i.val + j.val) 0 }
           { rc with g := { rc.g with markovs := mrec :: rc.g.markovs } })
    | _, _ => { rc with errmsg := some "invalid index" }

/-- Model of `read_family` (state.c:1158-1187): `%255s %d %4095[^\n]` (the last
conversion takes at least one non-newline character, without skipping
white space of its own — the blank in the format does that); member-path
splitting is not modelled (no claim touches families). -/
def read_family_model (rc : ReadCtx) (s : List Char) : ReadCtx :=
  match (scanStr (some 255) s).bind (fun p1 =>
          (scanInt p1.2).map fun p2 => (p1.1, p2.1, p2.2)) with
  | none => { rc with errmsg := some "invalid syntax" }
  | some (fid, method, r2) =>
    let r3 := dropWs r2
    let members := r3.takeWhile (fun c => c ≠ '\n')
    if members.isEmpty then { rc with errmsg := some "invalid syntax" }
    else { rc with g := { rc.g with families := (fid, method, members) :: rc.g.families } }

/-! ## The read loop (`read_state`, state.c:1256-1356) -/

/-- The `sscanf("%d.%*[^\t]\t%d")` of the `PRELOAD` header: major version,
a literal dot, at least one non-tab character, then the stored time.
Returns `(major, time)`; `none` when fewer than 2 conversions succeed. -/
def parse_header (s : List Char) : Option (ℤ × ℤ) :=
  (scanInt s).bind fun p1 =>
    match p1.2 with
    | '.' :: r2 =>
      let skipped := r2.takeWhile (fun c => c ≠ '\t')
      if skipped.isEmpty then none
      else (scanInt (r2.dropWhile (fun c => c ≠ '\t'))).map fun p2 => (p1.1, p2.1)
    | _ => none

/-- One step of the read loop: either halt (the `break`s of `read_state`
that do *not* set `errmsg`: invalid first header, version mismatch) or
continue with the updated context (a dispatch that set `errmsg` also
continues — the `while (!rc.err && !rc.errmsg)` guard then exits before
the next line). -/
inductive LoopOut where
  | halt (rc : ReadCtx)
  | next (rc : ReadCtx)
deriving DecidableEq

/-- Dispatch of one line (body of the `while` loop of `read_state`):
scan the tag with `%31s`, advance the cursor by the tag length from the
start of the line, then branch exactly as the `strcmp` chain does.
Comment lines are recognised by the *first character of the line*
(`linebuf->str[0] != '#'`). -/
def read_state_step (runningMajor : ℤ) (lineno : ℕ) (line : List Char)
    (rc : ReadCtx) : LoopOut :=
  match scanStr (some 31) line with
  | none => .next { rc with errmsg := some "invalid tag" }
  | some (tag, _) =>
    let body := line.drop tag.length
    if lineno = 1 ∧ tag ≠ "PRELOAD".toList then
      .halt rc
    else if tag = "PRELOAD".toList then
      if lineno ≠ 1 then .next { rc with errmsg := some "invalid syntax" }
      else
        match parse_header body with
        | none => .next { rc with errmsg := some "invalid syntax" }
        | some (major, tm) =>
          if runningMajor < major then .halt rc
          else if major < runningMajor then .halt rc
          else .next { rc with g := { rc.g with time := tm, last_accounting_timestamp := tm } }
    else if tag = "MAP".toList then .next (read_map_model rc body)
    else if tag = "BADEXE".toList then .next rc
    else if tag = "EXE".toList then .next (read_exe_model rc body)
    else if tag = "EXEMAP".toList then .next (read_exemap_model rc body)
    else if tag = "MARKOV".toList then .next (read_markov_model rc body)
    else if tag = "FAMILY".toList then .next (read_family_model rc body)
    else if tag = "CRC32".toList then .next rc
    else if line ≠ [] ∧ line.head? ≠ some '#' then
      .next { rc with errmsg := some "invalid tag" }
    else .next rc

/-- The read loop over the file's lines, threading the 1-based line
counter (used only for the error message prefix in C). -/
def read_state_loop (runningMajor : ℤ) : List (List Char) → ℕ → ReadCtx → ReadCtx
  | [], _, rc => rc
  | line :: rest, n, rc =>
    if rc.errmsg.isSome then rc
    else
      match read_state_step runningMajor (n + 1) line rc with
      | .halt rc2 => rc2
      | .next rc2 => read_state_loop runningMajor rest (n + 1) rc2

/-- Modelled from the spec: `exe_is_running` is a macro of the missing
`state.h`; spec §3 defines `running_timestamp` as the start of the current
run or −1, so an exe is running iff `running_timestamp ≥ 0`. -/
def isRunningIn (g : LoadGlobal) (seq : ℤ) : Bool :=
  match g.exes.find? (fun e => e.seq == seq) with
  | some e => decide (0 ≤ e.running_timestamp)
  | none => false

/-- One step of the `kp_proc_foreach(set_running_process_callback, time)`
loop (state.c:1190-1200): a running process whose path matches a tracked
exe sets that exe's `running_timestamp` to the loaded time and prepends
it to `running_exes`. -/
def proc_mark_running (acc : LoadGlobal) (p : List Char) : LoadGlobal :=
  match acc.exes.find? (fun e => e.path == p) with
  | some e =>
    { acc with
      exes := acc.exes.map fun e2 =>
        if e2.path == p then { e2 with running_timestamp := acc.time } else e2,
      running_exes := e.seq :: acc.running_exes }
  | none => acc

/-- The success epilogue of `read_state` (state.c:1349-1353): mark every
currently running tracked exe (`kp_proc_foreach`, whose `/proc` snapshot
is the abstract input `procPaths`), set `last_running_timestamp`, and
recompute every markov's `state` from the endpoints' running status. -/
def finish_load (procPaths : List (List Char)) (g : LoadGlobal) : LoadGlobal :=
  let g1 := procPaths.foldl proc_mark_running g
  let g2 := { g1 with last_running_timestamp := g1.time }
  { g2 with
    markovs := g2.markovs.map fun mk =>
      { mk with state := markov_state (isRunningIn g2 mk.aSeq) (isRunningIn g2 mk.bSeq) } }

/-- One `kp_map_unref` performed by the value-destroy of the reader's
local map table: the map registered under local entry `p` loses the
table's own reference; if that was its last reference (refcount 1, i.e.
no `EXEMAP` line referenced it) it is unregistered and freed. -/
def unref_local_map (g : LoadGlobal) (p : ℤ × ℤ) : LoadGlobal :=
  { g with maps := g.maps.filterMap fun m =>
      if m.seq == p.2 then
        (if m.refcount == 1 then none
         else some { m with refcount := m.refcount - 1 })
      else some m }

/-- Model of `g_hash_table_destroy(rc.maps)` (read_state, state.c:1269
value-destroy `kp_map_unref`, executed at state.c:1338 on *every* exit
of `read_state`, success or error, before the success epilogue): each
map in the reader's local table is unreffed once.  The C hash table's
destruction order is unspecified; the result is order-independent
because each local entry holds a distinct `seq`, so the model sweeps in
table order. -/
def destroy_local_maps (rc : ReadCtx) : LoadGlobal :=
  rc.localMaps.foldl unref_local_map rc.g

/-- Freshly `memset` global state (`kp_state_load`, state.c:1366). -/
def emptyGlobal : LoadGlobal :=
  { time := 0, last_accounting_timestamp := 0, last_running_timestamp := 0,
    exes := [], maps := [], exemaps := [], markovs := [], families := [],
    exe_seq := 0, map_seq := 0, running_exes := [] }

/-- Fresh reader context. -/
def initReadCtx : ReadCtx :=
  { g := emptyGlobal, localMaps := [], localExes := [], errmsg := none }

/-- Outcome of `kp_state_load`.  `quarantined` records that
`handle_corrupt_statefile` ran, i.e. the state file was renamed to
`<statefile>.broken.<ts>` (the rename syscall itself is external I/O);
`seeded` records that `kp_seed_from_sources` ran (the seeder lives in a
module that is not among the provided sources; it only *adds* candidate
exes, which no claim inspects, so it is modelled as this flag). -/
structure LoadResult where
  g : LoadGlobal
  errored : Bool
  quarantined : Bool
  state_was_empty : Bool
  seeded : Bool
deriving DecidableEq

/-- Model of `kp_state_load` (state.c:1362-1423) for an existing, readable state
file with the given lines (each line as delivered by
`g_io_channel_read_line_string`, i.e. including its terminating newline),
and for a missing file (`fileExists = false`, the `G_FILE_ERROR_NOENT`
branch).  After the loop, `read_state` destroys the `rc.maps` table
(state.c:1338) on success and error exits alike — `destroy_local_maps`,
which drops the table's own reference to every loaded map and frees the
maps no `EXEMAP` line referenced — and only then, with no error pending,
runs the success epilogue (`finish_load`).  On an error the partially
loaded exes, exemaps and markovs are *not* removed from the global
state. -/
def kp_state_load_model (runningMajor : ℤ) (fileExists : Bool)
    (lines : List (List Char)) (procPaths : List (List Char)) : LoadResult :=
  if fileExists = false then
    { g := emptyGlobal, errored := false, quarantined := false,
      state_was_empty := true, seeded := true }
  else
    let rc := read_state_loop runningMajor lines 0 initReadCtx
    let g1 := destroy_local_maps rc
    match rc.errmsg with
    | some _ =>
      { g := g1, errored := true, quarantined := true,
        state_was_empty := true, seeded := true }
    | none =>
      let g := finish_load procPaths g1
      { g := g, errored := false, quarantined := false,
        state_was_empty := false, seeded := g.exes.isEmpty }

/-! ## Saving (`kp_state_save`, state.c:1799-1855) -/

/-- Outcomes of the I/O operations a save performs, abstracted. -/
structure SaveIo where
  open_ok : Bool
  write_ok : Bool
  fsync_ok : Bool
  rename_ok : Bool
deriving DecidableEq

/-- The parts of `kp_state` that `kp_state_save` touches: the `dirty`
flag, the `bad_exes` table (cleared at the end of every call) and the
model data, which the write path only reads. -/
structure PersistState where
  dirty : Bool
  bad_exes : List (List Char × ℤ)
  g : LoadGlobal
deriving DecidableEq

/-- Observable outcome of `kp_state_save`. -/
structure SaveOutcome where
  st : PersistState
  opened_tmp : Bool
  renamed : Bool
  tmp_unlinked : Bool
deriving DecidableEq

/-- Model of `kp_state_save` (state.c:1799-1855): the whole write happens only
under `if (kp_state->dirty && statefile && *statefile)`.  Open failure
only logs; a write error unlinks the temp file; an `fsync` failure only
logs (the rename still happens); a rename failure unlinks the temp file.
`kp_state->dirty = FALSE` executes on *every* path inside the guarded
block, success or not, and `bad_exes` is cleared on every call. -/
def kp_state_save_model (statefile_nonempty : Bool) (io : SaveIo)
    (s : PersistState) : SaveOutcome :=
  if s.dirty && statefile_nonempty then
    if io.open_ok = false then
      { st := { s with dirty := false, bad_exes := [] },
        opened_tmp := false, renamed := false, tmp_unlinked := false }
    else if io.write_ok = false then
      { st := { s with dirty := false, bad_exes := [] },
        opened_tmp := true, renamed := false, tmp_unlinked := true }
    else if io.rename_ok = false then
      { st := { s with dirty := false, bad_exes := [] },
        opened_tmp := true, renamed := false, tmp_unlinked := true }
    else
      { st := { s with dirty := false, bad_exes := [] },
        opened_tmp := true, renamed := true, tmp_unlinked := false }
  else
    { st := { s with bad_exes := [] },
      opened_tmp := false, renamed := false, tmp_unlinked := false }

/-! ## Map reference counting (C9)

`kp_map_ref` / `kp_map_unref` (state.c:166-189) and their callers
`kp_exemap_new` / `kp_exemap_free` / `kp_exe_free` (state.c:253-279,
659-682).  Maps are identified by an abstract allocation id; the
registered-map table holds `(id, refcount)` pairs; each holder of a
strong reference (an `ExeMap`, or the loader's `rc.maps` table while a
load is in progress) is a list of referenced map ids, and an `Exe` is
such a holder list.  `kp_exe_free` unrefs its exemaps one by one
(`g_set_foreach` of `kp_exemap_free`), i.e. it is the composition of
`detach` steps followed by dropping the then-empty holder. -/

/-- Is `m` a registered map id?  (In C this is `map->refcount != 0`; under
the invariant being proved this coincides with table membership.) -/
def hasKey (maps : List (ℕ × ℤ)) (m : ℕ) : Bool := maps.any (fun p => p.1 == m)

/-- Model of `kp_map_ref` (state.c:166-172): register on the 0→1 transition
(fresh entry with refcount 1), otherwise increment. -/
def mapRef (maps : List (ℕ × ℤ)) (m : ℕ) : List (ℕ × ℤ) :=
  if hasKey maps m then
    maps.map fun p => if p.1 = m then (p.1, p.2 + 1) else p
  else (m, 1) :: maps

/-- Model of `kp_map_unref` (state.c:178-189): decrement; on reaching 0 the map is
unregistered and freed (the entry disappears). -/
def mapUnref (maps : List (ℕ × ℤ)) (m : ℕ) : List (ℕ × ℤ) :=
  maps.filterMap fun p =>
    if p.1 = m then (if p.2 = 1 then none else some (p.1, p.2 - 1)) else some p

/-- Replace the `i`-th element of a list of holders. -/
def updateAt (i : ℕ) (f : List ℕ → List ℕ) : List (List ℕ) → List (List ℕ)
  | [] => []
  | e :: es =>
    match i with
    | 0 => f e :: es
    | j + 1 => e :: updateAt j f es

/-- Reference-counting state: the exemap holders and the registered-map
table. -/
structure RCState where
  exes : List (List ℕ)
  maps : List (ℕ × ℤ)
deriving DecidableEq

/-- The reference-manipulating operations of the state module:
`newExe` = `kp_exe_new` with empty exemaps (also: a fresh loader-local
table); `attach` = `kp_exe_map_new`/`kp_exemap_new` (map_ref + insert);
`detach` = `kp_exemap_free` (map_unref, exemap gone);
`dropExe` = freeing an exe whose exemaps have all been detached
(`kp_exe_free` is `detach*` then `dropExe`). -/
inductive RCStep : RCState → RCState → Prop
  | newExe (s : RCState) : RCStep s ⟨[] :: s.exes, s.maps⟩
  | attach (s : RCState) (i m : ℕ) (h : i < s.exes.length) :
      RCStep s ⟨updateAt i (fun l => m :: l) s.exes, mapRef s.maps m⟩
  | detach (s : RCState) (i m : ℕ) (l : List ℕ)
      (hget : s.exes.get? i = some l) (hm : m ∈ l) :
      RCStep s ⟨updateAt i (fun l2 => l2.erase m) s.exes, mapUnref s.maps m⟩
  | dropExe (s : RCState) (i : ℕ) (hget : s.exes.get? i = some []) :
      RCStep s ⟨s.exes.eraseIdx i, s.maps⟩

/-- States reachable from the empty state by the operations above. -/
inductive RCReach : RCState → Prop
  | init : RCReach ⟨[], []⟩
  | step {s t : RCState} : RCReach s → RCStep s t → RCReach t

/-- The invariant of spec §8 P1: every registered map's refcount equals
the number of exemaps referring to it and is at least 1 (so registration
coincides with refcount ≥ 1 and an entry reaching 0 is gone); every
referenced map is registered; ids are unique in the table. -/
def refcountInv (s : RCState) : Prop :=
  (∀ p ∈ s.maps, p.2 = (s.exes.flatten.count p.1 : ℤ) ∧ 1 ≤ p.2) ∧
  (∀ m ∈ s.exes.flatten, hasKey s.maps m = true) ∧
  (s.maps.map Prod.fst).Nodup

/-! ## Concrete state files used by the counterexamples and witnesses -/

/-- A well-formed five-line state file whose statistics are inconsistent:
`state.time = 10`, both exes report 5 seconds of running time, yet the
markov reports 10 seconds of *joint* running time.  Every line parses,
so `kp_state_load` accepts it. -/
def inconsistentStatsFile : List (List Char) :=
  ["PRELOAD\t1.0\t10\n".toList,
   "EXE\t1\t0\t5\t-1\tfile:///a\n".toList,
   "EXE\t2\t0\t5\t-1\tfile:///b\n".toList,
   ("MARKOV\t1\t2\t10" ++ "\t0\t0\t0\t0" ++
     "\t0\t0\t0\t0\t0\t0\t0\t0\t0\t0\t0\t0\t0\t0\t0\t0" ++ "\n").toList,
   "CRC32\tDEADBEEF\n".toList]

/-- Header and one `EXE` record; the C2 counterexample appends two
*different* `CRC32` footers to it — at most one of them can equal the
true checksum of the preceding bytes, so at least one of the two
resulting files has a mismatching CRC footer. -/
def crcPrefixFile : List (List Char) :=
  ["PRELOAD\t1.0\t7\n".toList,
   "EXE\t1\t0\t3\t-1\tfile:///bin/sh\n".toList]

/-- A state file whose `MARKOV` line carries only three dwell times
instead of four — the literal corrupt-load scenario of spec §8. -/
def shortMarkovFile : List (List Char) :=
  ["PRELOAD\t1.0\t7\n".toList,
   "EXE\t1\t0\t3\t-1\tfile:///bin/sh\n".toList,
   "EXE\t2\t0\t4\t-1\tfile:///bin/ls\n".toList,
   "MARKOV\t1\t2\t5\t0\t0\t0\n".toList]

/-- A state file that parses two `MAP` records, two `EXE` records and an
`EXEMAP` referencing only the first map before hitting a malformed
`MARKOV` line: the loader errors with the parsed records still in
memory, and the local-table teardown frees exactly the map that no
`EXEMAP` line referenced. -/
def mapQuarFile : List (List Char) :=
  ["PRELOAD\t1.0\t7\n".toList,
   "MAP\t1\t0\t0\t4096\t-1\tfile:///lib/kept.so\n".toList,
   "MAP\t2\t0\t0\t8192\t-1\tfile:///lib/dropped.so\n".toList,
   "EXE\t1\t0\t3\t-1\tfile:///bin/sh\n".toList,
   "EXE\t2\t0\t4\t-1\tfile:///bin/ls\n".toList,
   "EXEMAP\t1\t1\t0.5\n".toList,
   "MARKOV\t1\t2\t5\t0\t0\t0\n".toList]

/-! # Theorems -/

/-! ## Markov state-change operation (C4, C10) -/

/-- Helper: the early return of `kp_markov_state_changed` when the
change timestamp already equals the current logical time. -/
theorem markov_state_changed_of_timestamp_eq (now : ℤ) (aR bR : Bool) (m : Markov)
    (h : m.change_timestamp = now) : kp_markov_state_changed now aR bR m = m := by
  simp [kp_markov_state_changed, h]

/-- Helper: the `g_return_if_fail` bail-out when the recomputed state
equals the stored state. -/
theorem markov_state_changed_of_state_eq (now : ℤ) (aR bR : Bool) (m : Markov)
    (h : m.state = markov_state aR bR) : kp_markov_state_changed now aR bR m = m := by
  by_cases h1 : m.change_timestamp = now
  · simp [kp_markov_state_changed, h1]
  · simp [kp_markov_state_changed, h1, h]

/-- C4: on a real transition `s → s'` (`s ≠ s'`) at a later logical time
`now > change_timestamp`, `kp_markov_state_changed` increments
`weight[s][s]`, folds the dwell time into `time_to_leave[s]` with the
incremental mean `ttl += ((now − change_ts) − ttl) / weight[s][s]`
(using the already incremented visit count), increments `weight[s][s']`,
sets `state := s'` and `change_timestamp := now`, and changes nothing
else (`time`, the other dwell times, and all other weights are
untouched). -/
theorem claim_C4_state_changed (m : Markov) (now : ℤ) (aR bR : Bool)
    (hlt : m.change_timestamp < now)
    (hne : markov_state aR bR ≠ m.state) :
    (kp_markov_state_changed now aR bR m).state = markov_state aR bR ∧
    (kp_markov_state_changed now aR bR m).change_timestamp = now ∧
    (kp_markov_state_changed now aR bR m).time = m.time ∧
    (kp_markov_state_changed now aR bR m).weight m.state m.state
      = m.weight m.state m.state + 1 ∧
    (kp_markov_state_changed now aR bR m).weight m.state (markov_state aR bR)
      = m.weight m.state (markov_state aR bR) + 1 ∧
    (∀ i j : Fin 4, ¬(i = m.state ∧ j = m.state) →
      ¬(i = m.state ∧ j = markov_state aR bR) →
      (kp_markov_state_changed now aR bR m).weight i j = m.weight i j) ∧
    (kp_markov_state_changed now aR bR m).time_to_leave m.state
      = m.time_to_leave m.state
        + (((now - m.change_timestamp : ℤ) : ℚ) - m.time_to_leave m.state)
          / ((m.weight m.state m.state + 1 : ℤ) : ℚ) ∧
    (∀ s : Fin 4, s ≠ m.state →
      (kp_markov_state_changed now aR bR m).time_to_leave s = m.time_to_leave s) := by
  have hts : ¬(m.change_timestamp = now) := ne_of_lt hlt
  have hst : ¬(m.state = markov_state aR bR) := fun h => hne h.symm
  simp only [kp_markov_state_changed, if_neg hts, if_neg hst]
  refine ⟨?_, ?_, ?_, ?_, ?_, ?_, ?_, ?_⟩
  · trivial
  · trivial
  · trivial
  · simp [hst]
  · simp [hne]
  · intro i j hij hij2
    rw [if_neg hij2, if_neg hij]
  · simp
  · intro s hs
    rw [if_neg hs]

/-- Witness for C4 at a concrete Markov. -/
theorem claim_C4_witness :
    (kp_markov_state_changed 3 true false
        ⟨0, 0, 5, fun _ => 0, fun _ _ => 0⟩).weight 0 0 = 1 :=
  ((claim_C4_state_changed ⟨0, 0, 5, fun _ => 0, fun _ _ => 0⟩ 3 true false
      (by decide) (by decide)).2.2.2.1).trans (by decide)

/-- C10: when `change_timestamp` equals the current logical time,
`kp_markov_state_changed` is the identity, and consequently the
operation is idempotent at a fixed logical time — repeated calls record
at most one transition. -/
theorem claim_C10_same_time_identity (now : ℤ) (aR bR : Bool) (m : Markov) :
    (m.change_timestamp = now → kp_markov_state_changed now aR bR m = m) ∧
    kp_markov_state_changed now aR bR (kp_markov_state_changed now aR bR m)
      = kp_markov_state_changed now aR bR m := by
  refine ⟨markov_state_changed_of_timestamp_eq now aR bR m, ?_⟩
  by_cases h1 : m.change_timestamp = now
  · rw [markov_state_changed_of_timestamp_eq now aR bR m h1,
      markov_state_changed_of_timestamp_eq now aR bR m h1]
  · by_cases h2 : m.state = markov_state aR bR
    · rw [markov_state_changed_of_state_eq now aR bR m h2,
        markov_state_changed_of_state_eq now aR bR m h2]
    · have hts : (kp_markov_state_changed now aR bR m).change_timestamp = now := by
        simp [kp_markov_state_changed, h1, h2]
      exact markov_state_changed_of_timestamp_eq now aR bR _ hts

/-- Witness for C10 at a concrete Markov whose timestamp equals `now`. -/
theorem claim_C10_witness :
    kp_markov_state_changed 5 true false ⟨0, 5, 7, fun _ => 0, fun _ _ => 0⟩
      = ⟨0, 5, 7, fun _ => 0, fun _ _ => 0⟩ :=
  (claim_C10_same_time_identity 5 true false ⟨0, 5, 7, fun _ => 0, fun _ _ => 0⟩).1 rfl

/-! ## Tick arithmetic (C6) -/

/-- Helper: C truncating division agrees with floor division on
non-negative numerators (positive divisor 2). -/
theorem tdiv_two_of_nonneg (a : ℤ) (h : 0 ≤ a) : Int.tdiv a 2 = a / 2 :=
  Int.tdiv_eq_ediv h (by norm_num)

/-- C6: for `cycle ≥ 0`, tick phase 1 advances `time` by `⌊cycle/2⌋`,
tick phase 2 by `⌊(cycle+1)/2⌋`, and the two together by exactly
`cycle` (exact integer division; no drift). -/
theorem claim_C6_cycle_split (env : TickEnv) (t : ℤ) (d md md2 : Bool)
    (p : PauseState) (h : 0 ≤ env.cycle) :
    (kp_state_tick_model env t d md p).time = t + env.cycle / 2 ∧
    (kp_state_tick2_model env.cycle (kp_state_tick_model env t d md p).time md2).time
      = t + env.cycle / 2 + (env.cycle + 1) / 2 ∧
    (kp_state_tick2_model env.cycle (kp_state_tick_model env t d md p).time md2).time
      = t + env.cycle := by
  have h1 : Int.tdiv env.cycle 2 = env.cycle / 2 := tdiv_two_of_nonneg _ h
  have h2 : Int.tdiv (env.cycle + 1) 2 = (env.cycle + 1) / 2 :=
    tdiv_two_of_nonneg _ (by omega)
  refine ⟨?_, ?_, ?_⟩
  · simp only [kp_state_tick_model, h1]
  · simp only [kp_state_tick_model, kp_state_tick2_model, h1, h2]
  · simp only [kp_state_tick_model, kp_state_tick2_model, h1, h2]
    omega

/-- Witness for C6 with an odd cycle. -/
theorem claim_C6_witness :
    (kp_state_tick_model ⟨true, true, 21, 0, false, 0, 0⟩ 100 false false
        ⟨false, -1⟩).time = 100 + 21 / 2 :=
  (claim_C6_cycle_split ⟨true, true, 21, 0, false, 0, 0⟩ 100 false false false
      ⟨false, -1⟩ (by decide)).1

/-! ## Pause gating (C7) -/

/-- C7: while the pause is active and not expired (`expiry = 0`, i.e.
until reboot, or `wallNow < expiry`), a tick never invokes the predictor
and issues no readahead call, and leaves the pause state untouched; and
once the expiry has passed, the very next tick with prediction enabled
clears the pause and invokes the predictor again. -/
theorem claim_C7_pause_gates_predictor (env : TickEnv) (t : ℤ) (d md : Bool)
    (p : PauseState) (hact : p.active = true) :
    ((p.expiry = 0 ∨ env.wallNow < p.expiry) →
      (kp_state_tick_model env t d md p).predictor_invoked = false ∧
      (kp_state_tick_model env t d md p).readahead_calls = 0 ∧
      (kp_state_tick_model env t d md p).pause = p) ∧
    (p.expiry ≠ 0 → p.expiry ≤ env.wallNow → env.dopredict = true →
      (kp_state_tick_model env t d md p).pause = kp_pause_cleared ∧
      (kp_state_tick_model env t d md p).predictor_invoked = true) := by
  constructor
  · intro hexp
    have hchk : kp_pause_is_active env.wallNow p = (true, p) := by
      rcases hexp with h0 | hfut
      · simp [kp_pause_is_active, hact, h0]
      · simp [kp_pause_is_active, hact, not_le.2 hfut]
    cases hpred : env.dopredict <;>
      simp [kp_state_tick_model, hpred, hchk]
  · intro hnz hpast hpred
    have hchk : kp_pause_is_active env.wallNow p = (false, kp_pause_cleared) := by
      simp [kp_pause_is_active, hact, hnz, hpast]
    simp [kp_state_tick_model, hpred, hchk]

/-- Witness for C7: paused until a future expiry, prediction enabled. -/
theorem claim_C7_witness :
    (kp_state_tick_model ⟨true, true, 20, 50, false, 3, 2⟩ 0 false false
        ⟨true, 100⟩).readahead_calls = 0 :=
  ((claim_C7_pause_gates_predictor ⟨true, true, 20, 50, false, 3, 2⟩ 0 false false
      ⟨true, 100⟩ rfl).1 (Or.inr (by decide))).2.1

/-! ## Save verb (C1, C3) -/

/-- C1 (amended): `kp_state_save` — the control-surface *save* verb,
invoked directly by `sig_handler_sync` on `SIGUSR2` — attempts a write
iff `state.dirty` is set and the statefile path is non-empty (the temp
file is then opened iff the open succeeds), and the statefile is
replaced iff additionally serialization and the rename succeed.  When
`dirty` is unset the call performs no write at all and only clears
`bad_exes`. -/
theorem claim_C1_amended (sf : Bool) (io : SaveIo) (s : PersistState) :
    ((kp_state_save_model sf io s).opened_tmp
        = (s.dirty && sf && io.open_ok)) ∧
    ((kp_state_save_model sf io s).renamed
        = (s.dirty && sf && io.open_ok && io.write_ok && io.rename_ok)) ∧
    (s.dirty = false →
      kp_state_save_model sf io s
        = ⟨{ s with bad_exes := [] }, false, false, false⟩) := by
  refine ⟨?_, ?_, ?_⟩
  · cases hd : s.dirty <;> cases sf <;> cases ho : io.open_ok <;>
      cases hw : io.write_ok <;> cases hr : io.rename_ok <;>
      simp [kp_state_save_model, hd, ho, hw, hr]
  · cases hd : s.dirty <;> cases sf <;> cases ho : io.open_ok <;>
      cases hw : io.write_ok <;> cases hr : io.rename_ok <;>
      simp [kp_state_save_model, hd, ho, hw, hr]
  · intro hd
    simp [kp_state_save_model, hd]

/-- C1 counterexample: the claim says *save* forces a write regardless of
`dirty`; on a clean state (dirty unset) `kp_state_save` opens no temp
file and replaces nothing, even with every I/O operation able to
succeed. -/
theorem claim_C1_counterexample :
    (kp_state_save_model true ⟨true, true, true, true⟩
        ⟨false, [(['/', 'x'], 3)], emptyGlobal⟩).opened_tmp = false ∧
    (kp_state_save_model true ⟨true, true, true, true⟩
        ⟨false, [(['/', 'x'], 3)], emptyGlobal⟩).renamed = false := by
  constructor <;> rfl

/-- Witness for C1 (amended) on a clean state. -/
theorem claim_C1_witness :
    kp_state_save_model true ⟨true, true, true, true⟩ ⟨false, [], emptyGlobal⟩
      = ⟨⟨false, [], emptyGlobal⟩, false, false, false⟩ :=
  (claim_C1_amended true ⟨true, true, true, true⟩ ⟨false, [], emptyGlobal⟩).2.2 rfl

/-- C3 (amended): when a save fails for a resource reason (temp-file open
failure, write error, or failed rename) the model data (exes, maps,
exemaps, markovs) is unchanged and the statefile is not replaced — but
`state.dirty` is cleared anyway (it is reset on *every* attempted save)
and `bad_exes` is emptied, so the data is not retried at the next
autosave unless a later scan marks the state dirty again. -/
theorem claim_C3_amended (io : SaveIo) (s : PersistState)
    (hd : s.dirty = true)
    (hfail : io.open_ok = false ∨ io.write_ok = false ∨ io.rename_ok = false) :
    (kp_state_save_model true io s).renamed = false ∧
    (kp_state_save_model true io s).st.g = s.g ∧
    (kp_state_save_model true io s).st.dirty = false ∧
    (kp_state_save_model true io s).st.bad_exes = [] := by
  rcases hfail with h | h | h <;>
    cases ho : io.open_ok <;> cases hw : io.write_ok <;> cases hr : io.rename_ok <;>
      simp_all [kp_state_save_model]

/-- C3 counterexample: the claim says `state.dirty` remains `true` after
a failed save; after a save whose temp-file open fails on a dirty state,
`dirty` is `false`. -/
theorem claim_C3_counterexample :
    (kp_state_save_model true ⟨false, true, true, true⟩
        ⟨true, [], emptyGlobal⟩).st.dirty = false := by
  rfl

/-- Witness for C3 (amended): write error on a dirty state. -/
theorem claim_C3_witness :
    (kp_state_save_model true ⟨true, false, true, true⟩
        ⟨true, [], emptyGlobal⟩).st.g = emptyGlobal :=
  (claim_C3_amended ⟨true, false, true, true⟩ ⟨true, [], emptyGlobal⟩ rfl
      (Or.inr (Or.inl rfl))).2.1

/-! ## Correlation bound (C5)

The Pearson-style bound: for indicator processes observed over `t` time
units, with marginal times `a`, `b` and joint time `x`, the squared
numerator is at most the squared denominator exactly when `x` lies
within the Fréchet bounds `max(0, a+b-t) ≤ x ≤ min(a, b)`.  Writing
`u = a - x`, `v = b - x`, `w = t - a - b + x` one has the polynomial
identity
`den - num² = (uv+wx)(uw+vx+vw+ux) + (uw+vx)(vw+ux) + 4uvwx`,
a sum of products of non-negative quantities. -/

/-- Helper: the squared correlation numerator is bounded by the squared
denominator under the Fréchet bounds. -/
theorem corr_num_sq_le_den (t a b x : ℤ) (hx0 : 0 ≤ x) (hxa : x ≤ a) (hxb : x ≤ b)
    (hfr : a + b - t ≤ x) :
    (corr_num t a b x) ^ 2 ≤ corr_den t a b := by
  have hu : 0 ≤ a - x := by omega
  have hv : 0 ≤ b - x := by omega
  have hw : 0 ≤ t - a - b + x := by omega
  have key : corr_den t a b - (corr_num t a b x) ^ 2 =
      ((a - x) * (b - x) + (t - a - b + x) * x) *
        ((a - x) * (t - a - b + x) + (b - x) * x +
          (b - x) * (t - a - b + x) + (a - x) * x) +
      ((a - x) * (t - a - b + x) + (b - x) * x) *
        ((b - x) * (t - a - b + x) + (a - x) * x) +
      4 * ((a - x) * (b - x) * ((t - a - b + x) * x)) := by
    simp only [corr_num, corr_den]; ring
  nlinarith [mul_nonneg hu hv, mul_nonneg hw hx0, mul_nonneg hu hw,
    mul_nonneg hv hx0, mul_nonneg hv hw, mul_nonneg hu hx0,
    mul_nonneg (mul_nonneg hu hv) (mul_nonneg hw hx0),
    mul_nonneg (add_nonneg (mul_nonneg hu hv) (mul_nonneg hw hx0))
      (add_nonneg (add_nonneg (add_nonneg (mul_nonneg hu hw) (mul_nonneg hv hx0))
        (mul_nonneg hv hw)) (mul_nonneg hu hx0)),
    mul_nonneg (add_nonneg (mul_nonneg hu hw) (mul_nonneg hv hx0))
      (add_nonneg (mul_nonneg hv hw) (mul_nonneg hu hx0))]

/-- C5 (amended): `kp_markov_correlation` returns exactly 0 whenever
`exe_a.time` or `exe_b.time` equals 0 or `state.time`, and for every
Markov whose statistics are *consistent* — the joint running time lies
within `max(0, a+b-t) ≤ markov.time ≤ min(a, b)` and the marginal times
within `[0, t]` — the assertion `|corr| ≤ 1.00001` holds.  (Unrestricted
reachability fails: `kp_state_load` accepts files with inconsistent
statistics, see the counterexample.) -/
theorem claim_C5_amended (t a b ab : ℤ)
    (h0 : 0 ≤ ab) (ha : ab ≤ a) (hb : ab ≤ b) (hfr : a + b - t ≤ ab)
    (ha0 : 0 ≤ a) (hat : a ≤ t) (hb0 : 0 ≤ b) (hbt : b ≤ t) :
    correlation_assert_holds t a b ab = true ∧
    (corr_is_zero t a b = true → corrSq t a b ab = 0) := by
  constructor
  · by_cases hz : corr_is_zero t a b = true
    · simp [correlation_assert_holds, hz]
    · have hz' : ¬(a = 0 ∨ a = t ∨ b = 0 ∨ b = t) := by
        simp only [corr_is_zero, Bool.or_eq_true, decide_eq_true_eq] at hz
        tauto
      push_neg at hz'
      obtain ⟨ha1, ha2, hb1, hb2⟩ := hz'
      have hden : 0 < corr_den t a b := by
        have : 0 < a := lt_of_le_of_ne ha0 (Ne.symm ha1)
        have : 0 < b := lt_of_le_of_ne hb0 (Ne.symm hb1)
        have : 0 < t - a := by
          have := lt_of_le_of_ne hat ha2
          omega
        have : 0 < t - b := by
          have := lt_of_le_of_ne hbt hb2
          omega
        simp only [corr_den]
        positivity
      have hnum := corr_num_sq_le_den t a b ab h0 ha hb hfr
      have hineq : (corr_num t a b ab) ^ 2 * 10000000000 ≤ 10000200001 * corr_den t a b := by
        linarith
      simp only [correlation_assert_holds, Bool.or_eq_true, Bool.and_eq_true,
        decide_eq_true_eq]
      exact Or.inr ⟨hden, by linarith⟩
  · intro hz
    simp [corrSq, hz]

/-- Witness for C5 (amended) at consistent concrete statistics. -/
theorem claim_C5_witness :
    correlation_assert_holds 10 4 5 2 = true :=
  (claim_C5_amended 10 4 5 2 (by decide) (by decide) (by decide) (by decide)
      (by decide) (by decide) (by decide) (by decide)).1

/-- C5 counterexample: the assertion is *not* unreachable.  The daemon's
own `kp_state_load` accepts `inconsistentStatsFile` without any error;
the loaded state has `state.time = 10`, both exes have `time = 5`, and
their markov has joint `time = 10`, where the asserted bound
`|corr| ≤ 1.00001` is false (the correlation evaluates to exactly 3). -/
theorem claim_C5_counterexample :
    (kp_state_load_model 1 true inconsistentStatsFile []).errored = false ∧
    (kp_state_load_model 1 true inconsistentStatsFile []).quarantined = false ∧
    (kp_state_load_model 1 true inconsistentStatsFile []).g.time = 10 ∧
    ((kp_state_load_model 1 true inconsistentStatsFile []).g.exes.map
        (fun e => (e.seq, e.time))) = [(2, 5), (1, 5)] ∧
    ((kp_state_load_model 1 true inconsistentStatsFile []).g.markovs.map
        (fun mk => (mk.aSeq, mk.bSeq, mk.time))) = [(1, 2, 10)] ∧
    correlation_assert_holds 10 5 5 10 = false := by
  decide

/-! ## State-file quarantine (C2) -/

/-- Helper: marking running processes does nothing when no exe is
tracked. -/
theorem foldl_proc_mark_running_nil (pp : List (List Char)) :
    ∀ g : LoadGlobal, g.exes = [] → pp.foldl proc_mark_running g = g := by
  induction pp with
  | nil => intro g _; rfl
  | cons p pp ih =>
    intro g h
    rw [List.foldl_cons]
    have hstep : proc_mark_running g p = g := by
      unfold proc_mark_running
      rw [h]
      rfl
    rw [hstep]
    exact ih g h

/-- Helper: the load epilogue preserves emptiness. -/
theorem finish_load_empty (pp : List (List Char)) :
    (finish_load pp emptyGlobal).exes = [] ∧ (finish_load pp emptyGlobal).maps = [] := by
  unfold finish_load
  rw [foldl_proc_mark_running_nil pp emptyGlobal rfl]
  exact ⟨rfl, rfl⟩

/-- Helper: sweeping the local map table touches only the `maps` field. -/
theorem foldl_unref_frame (l : List (ℤ × ℤ)) :
    ∀ g : LoadGlobal,
      (l.foldl unref_local_map g).exes = g.exes ∧
      (l.foldl unref_local_map g).exemaps = g.exemaps ∧
      (l.foldl unref_local_map g).markovs = g.markovs := by
  induction l with
  | nil => intro g; exact ⟨rfl, rfl, rfl⟩
  | cons p l ih =>
    intro g
    rw [List.foldl_cons]
    exact ih (unref_local_map g p)

/-- Helper: `destroy_local_maps` leaves exes, exemaps and markovs of the
reader context untouched. -/
theorem destroy_local_maps_frame (rc : ReadCtx) :
    (destroy_local_maps rc).exes = rc.g.exes ∧
    (destroy_local_maps rc).exemaps = rc.g.exemaps ∧
    (destroy_local_maps rc).markovs = rc.g.markovs :=
  foldl_unref_frame rc.localMaps rc.g

/-- C2 (amended): a state file is quarantined (renamed to
`<statefile>.broken.<ts>`) exactly when the reader reports an error —
i.e. on a malformed line (or an undecodable URI) *after* a valid header.
Such an error does not clear what was already loaded: the exes, exemaps
and markovs parsed before the error stay registered, and the maps are
exactly the parsed ones after the reader's local-table teardown
(`destroy_local_maps`, which frees precisely the maps no `EXEMAP` line
referenced).  A file whose first line is not a `PRELOAD` header is
ignored without a rename, leaving the state empty; and the `CRC32`
footer is parsed but never validated (the dispatch step for a `CRC32`
line is the identity on the reader context for any stored value), so a
CRC mismatch is not a corruption condition. -/
theorem claim_C2_amended (maj : ℤ) (lines pp : List (List Char)) :
    ((kp_state_load_model maj true lines pp).errored = true →
      (kp_state_load_model maj true lines pp).quarantined = true) ∧
    ((kp_state_load_model maj true lines pp).errored = false →
      (kp_state_load_model maj true lines pp).quarantined = false) ∧
    ((kp_state_load_model maj true lines pp).errored = true →
      (kp_state_load_model maj true lines pp).g.exes
          = (read_state_loop maj lines 0 initReadCtx).g.exes ∧
      (kp_state_load_model maj true lines pp).g.exemaps
          = (read_state_loop maj lines 0 initReadCtx).g.exemaps ∧
      (kp_state_load_model maj true lines pp).g.markovs
          = (read_state_loop maj lines 0 initReadCtx).g.markovs ∧
      (kp_state_load_model maj true lines pp).g.maps
          = (destroy_local_maps (read_state_loop maj lines 0 initReadCtx)).maps) ∧
    (∀ line rest tag s2, lines = line :: rest →
      scanStr (some 31) line = some (tag, s2) → tag ≠ "PRELOAD".toList →
      (kp_state_load_model maj true lines pp).quarantined = false ∧
      (kp_state_load_model maj true lines pp).g.exes = [] ∧
      (kp_state_load_model maj true lines pp).g.maps = []) ∧
    (∀ (n : ℕ) (rc : ReadCtx) (w : List Char),
      read_state_step maj (n + 2) ('C' :: 'R' :: 'C' :: '3' :: '2' :: '\t' :: w) rc
        = .next rc) := by
  refine ⟨?_, ?_, ?_, ?_, ?_⟩
  · intro h
    unfold kp_state_load_model at h ⊢
    cases hrc : (read_state_loop maj lines 0 initReadCtx).errmsg with
    | none => simp [hrc] at h
    | some e => simp [hrc]
  · intro h
    unfold kp_state_load_model at h ⊢
    cases hrc : (read_state_loop maj lines 0 initReadCtx).errmsg with
    | none => simp [hrc]
    | some e => simp [hrc] at h
  · intro h
    unfold kp_state_load_model at h ⊢
    cases hrc : (read_state_loop maj lines 0 initReadCtx).errmsg with
    | none => simp [hrc] at h
    | some e =>
      obtain ⟨h1, h2, h3⟩ := destroy_local_maps_frame (read_state_loop maj lines 0 initReadCtx)
      simp [hrc, h1, h2, h3]
  · intro line rest tag s2 hlines hscan htag
    subst hlines
    have hstep : read_state_step maj 1 line initReadCtx = .halt initReadCtx := by
      unfold read_state_step
      rw [hscan]
      have htagL : ¬(tag = ['P', 'R', 'E', 'L', 'O', 'A', 'D']) := htag
      simp [htagL]
    have hloop : read_state_loop maj (line :: rest) 0 initReadCtx = initReadCtx := by
      unfold read_state_loop
      rw [hstep]
      rfl
    unfold kp_state_load_model
    rw [hloop]
    have hfin := finish_load_empty pp
    simp [initReadCtx, emptyGlobal, destroy_local_maps] at hfin ⊢
    exact hfin
  · intro n rc w
    have hscan : scanStr (some 31) ('C' :: 'R' :: 'C' :: '3' :: '2' :: '\t' :: w)
        = some ("CRC32".toList, '\t' :: w) := by
      simp +decide [scanStr, dropWs, isCSpace, List.takeWhile_cons, List.dropWhile_cons]
    unfold read_state_step
    rw [hscan]
    have h2 : ¬(n + 2 = 1) := by omega
    simp +decide [h2]

/-- C2 counterexample, two parts.  First, two copies of the same file
with *different* `CRC32` footers — at most one of which can match the
true checksum of the preceding bytes — both load without quarantine,
with identical non-empty state: a CRC mismatch neither empties the state
nor produces a `.broken.<ts>` rename.  Second, a file with a malformed
`MARKOV` line *is* quarantined, yet the in-memory state is not emptied:
both parsed exes remain, the `EXEMAP`-referenced map survives the
local-table teardown at refcount 1, and only the map no `EXEMAP` line
referenced is freed. -/
theorem claim_C2_counterexample :
    (kp_state_load_model 1 true
        (crcPrefixFile ++ ["CRC32\t00000000\n".toList]) []).quarantined = false ∧
    (kp_state_load_model 1 true
        (crcPrefixFile ++ ["CRC32\tFFFFFFFF\n".toList]) []).quarantined = false ∧
    ((kp_state_load_model 1 true
        (crcPrefixFile ++ ["CRC32\t00000000\n".toList]) []).g.exes.map ExeRec.path)
      = ["/bin/sh".toList] ∧
    (kp_state_load_model 1 true
        (crcPrefixFile ++ ["CRC32\t00000000\n".toList]) []).g
      = (kp_state_load_model 1 true
          (crcPrefixFile ++ ["CRC32\tFFFFFFFF\n".toList]) []).g ∧
    (kp_state_load_model 1 true mapQuarFile []).quarantined = true ∧
    ((kp_state_load_model 1 true mapQuarFile []).g.exes.map ExeRec.path)
      = ["/bin/ls".toList, "/bin/sh".toList] ∧
    ((kp_state_load_model 1 true mapQuarFile []).g.maps.map
        (fun m => (m.path, m.refcount)))
      = [("/lib/kept.so".toList, 1)] := by
  decide

/-- Witness for C2 (amended): the spec's literal corrupt-load scenario
(a `MARKOV` line with only three dwell times) errors and is therefore
quarantined. -/
theorem claim_C2_witness :
    (kp_state_load_model 1 true shortMarkovFile []).quarantined = true :=
  (claim_C2_amended 1 shortMarkovFile []).1 (by decide)

/-! ## EXE-line parsing (C8) -/

/-- Helper: the `"%d %d %d %d"` prefix scan touches only the four header
fields. -/
theorem scan4ints_untouched (f : ExeFields) (s : List Char) :
    ((scan4ints f s).2.1).pool = f.pool ∧
    ((scan4ints f s).2.1).weighted_launches = f.weighted_launches ∧
    ((scan4ints f s).2.1).raw_launches = f.raw_launches ∧
    ((scan4ints f s).2.1).total_duration = f.total_duration ∧
    ((scan4ints f s).2.1).filebuf = f.filebuf := by
  unfold scan4ints
  cases scanInt s with
  | none => exact ⟨rfl, rfl, rfl, rfl, rfl⟩
  | some p1 =>
    dsimp only
    cases scanInt p1.2 with
    | none => exact ⟨rfl, rfl, rfl, rfl, rfl⟩
    | some p2 =>
      dsimp only
      cases scanInt p2.2 with
      | none => exact ⟨rfl, rfl, rfl, rfl, rfl⟩
      | some p3 =>
        dsimp only
        cases scanInt p3.2 with
        | none => exact ⟨rfl, rfl, rfl, rfl, rfl⟩
        | some p4 => exact ⟨rfl, rfl, rfl, rfl, rfl⟩

/-- Helper: the count and the remaining input of the four-int prefix scan
do not depend on the incoming field values. -/
theorem scan4ints_count_rest (f g : ExeFields) (s : List Char) :
    (scan4ints f s).1 = (scan4ints g s).1 ∧
    (scan4ints f s).2.2 = (scan4ints g s).2.2 := by
  unfold scan4ints
  cases scanInt s with
  | none => exact ⟨rfl, rfl⟩
  | some p1 =>
    dsimp only
    cases scanInt p1.2 with
    | none => exact ⟨rfl, rfl⟩
    | some p2 =>
      dsimp only
      cases scanInt p2.2 with
      | none => exact ⟨rfl, rfl⟩
      | some p3 =>
        dsimp only
        cases scanInt p3.2 with
        | none => exact ⟨rfl, rfl⟩
        | some p4 => exact ⟨rfl, rfl⟩

/-- Helper: the 6-field scan never writes the weighted counters. -/
theorem sscanf_exe6_untouched (f : ExeFields) (s : List Char) :
    ((sscanf_exe6 f s).2).weighted_launches = f.weighted_launches ∧
    ((sscanf_exe6 f s).2).raw_launches = f.raw_launches ∧
    ((sscanf_exe6 f s).2).total_duration = f.total_duration := by
  obtain ⟨_, hw, hr, ht, _⟩ := scan4ints_untouched f s
  unfold sscanf_exe6
  by_cases hc : (scan4ints f s).1 < 4
  · rw [if_pos hc]
    exact ⟨hw, hr, ht⟩
  · rw [if_neg hc]
    cases scanInt (scan4ints f s).2.2 with
    | none => exact ⟨hw, hr, ht⟩
    | some p =>
      dsimp only
      cases scanStr none p.2 with
      | none => exact ⟨hw, hr, ht⟩
      | some t => exact ⟨hw, hr, ht⟩

/-- Helper: the 5-field scan never writes the weighted counters. -/
theorem sscanf_exe5_untouched (f : ExeFields) (s : List Char) :
    ((sscanf_exe5 f s).2).weighted_launches = f.weighted_launches ∧
    ((sscanf_exe5 f s).2).raw_launches = f.raw_launches ∧
    ((sscanf_exe5 f s).2).total_duration = f.total_duration := by
  obtain ⟨_, hw, hr, ht, _⟩ := scan4ints_untouched f s
  unfold sscanf_exe5
  by_cases hc : (scan4ints f s).1 < 4
  · rw [if_pos hc]
    exact ⟨hw, hr, ht⟩
  · rw [if_neg hc]
    cases scanStr none (scan4ints f s).2.2 with
    | none => exact ⟨hw, hr, ht⟩
    | some t => exact ⟨hw, hr, ht⟩

/-- Helper: a 9-field scan that stops before its sixth conversion leaves
the weighted counters untouched (they are written by conversions 6-8). -/
theorem sscanf_exe9_low (f : ExeFields) (s : List Char)
    (h : (sscanf_exe9 f s).1 ≤ 5) :
    ((sscanf_exe9 f s).2).weighted_launches = f.weighted_launches ∧
    ((sscanf_exe9 f s).2).raw_launches = f.raw_launches ∧
    ((sscanf_exe9 f s).2).total_duration = f.total_duration := by
  obtain ⟨_, hw, hr, ht, _⟩ := scan4ints_untouched f s
  unfold sscanf_exe9 at h ⊢
  by_cases hc : (scan4ints f s).1 < 4
  · rw [if_pos hc] at h ⊢
    exact ⟨hw, hr, ht⟩
  · rw [if_neg hc] at h ⊢
    revert h
    cases hp : scanInt (scan4ints f s).2.2 with
    | none => intro h; exact ⟨hw, hr, ht⟩
    | some p =>
      intro h
      try dsimp only at h ⊢
      revert h
      cases hq : scanDouble p.2 with
      | none => intro h; exact ⟨hw, hr, ht⟩
      | some q =>
        intro h
        try dsimp only at h ⊢
        revert h
        cases hu1 : scanULong q.2 with
        | none => intro h; try dsimp only at h; omega
        | some u1 =>
          intro h
          try dsimp only at h ⊢
          revert h
          cases hu2 : scanULong u1.2 with
          | none => intro h; try dsimp only at h; omega
          | some u2 =>
            intro h
            try dsimp only at h ⊢
            revert h
            cases htk : scanStr none u2.2 with
            | none => intro h; try dsimp only at h; omega
            | some tk => intro h; try dsimp only at h; omega

/-- Helper: anatomy of a 9-field scan that performed at least six
conversions — the four-int prefix succeeded, the fifth `%d` succeeded,
and the `%lf` on the remainder succeeded. -/
theorem sscanf_exe9_ge6 (f : ExeFields) (s : List Char)
    (h : 6 ≤ (sscanf_exe9 f s).1) :
    ¬(scan4ints f s).1 < 4 ∧
    ∃ p, scanInt (scan4ints f s).2.2 = some p ∧ ∃ q, scanDouble p.2 = some q := by
  unfold sscanf_exe9 at h
  by_cases hc : (scan4ints f s).1 < 4
  · rw [if_pos hc] at h
    dsimp only at h
    omega
  · rw [if_neg hc] at h
    refine ⟨hc, ?_⟩
    revert h
    cases hp : scanInt (scan4ints f s).2.2 with
    | none => intro h; try dsimp only at h; omega
    | some p =>
      intro h
      try dsimp only at h
      refine ⟨p, rfl, ?_⟩
      revert h
      cases hq : scanDouble p.2 with
      | none => intro h; try dsimp only at h; omega
      | some q => exact fun _ => ⟨q, rfl⟩

/-- Helper: a successful `%lf` conversion begins (after white space) with
a sign, a dot, or a digit. -/
theorem scanDouble_head (s : List Char) (p : ℚ × List Char)
    (h : scanDouble s = some p) :
    ∃ c r, dropWs s = c :: r ∧
      (c = '-' ∨ c = '+' ∨ c = '.' ∨ isDigitChar c = true) := by
  unfold scanDouble at h
  cases hs : dropWs s with
  | nil =>
    rw [hs] at h
    simp [scanSign] at h
  | cons c r =>
    rw [hs] at h
    refine ⟨c, r, rfl, ?_⟩
    by_cases h1 : c = '-'
    · exact Or.inl h1
    by_cases h2 : c = '+'
    · exact Or.inr (Or.inl h2)
    by_cases h3 : isDigitChar c = true
    · exact Or.inr (Or.inr (Or.inr h3))
    by_cases h4 : c = '.'
    · exact Or.inr (Or.inr (Or.inl h4))
    exfalso
    rw [Bool.not_eq_true] at h3
    simp [scanSign, h1, h2, h3, h4, List.takeWhile_cons, List.dropWhile_cons] at h

/-- Helper: a sign, dot, or digit character is neither white space nor
the letter `f`. -/
theorem headChar_not_space_not_f (c : Char)
    (h : c = '-' ∨ c = '+' ∨ c = '.' ∨ isDigitChar c = true) :
    isCSpace c = false ∧ c ≠ 'f' := by
  rcases h with h | h | h | h
  · subst h; exact ⟨rfl, by decide⟩
  · subst h; exact ⟨rfl, by decide⟩
  · subst h; exact ⟨rfl, by decide⟩
  · have hb : 48 ≤ c.toNat ∧ c.toNat ≤ 57 := by
      simpa [isDigitChar, Bool.and_eq_true, decide_eq_true_eq] using h
    constructor
    · simp only [isCSpace, Bool.or_eq_false_iff, decide_eq_false_iff_not]
      omega
    · intro hf
      rw [hf] at hb
      exact absurd hb (by decide)

/-- Helper: `%s` at a position whose first non-space character is `c`
reads a token starting with `c`. -/
theorem scanStr_none_head (s : List Char) (c : Char) (r : List Char)
    (hd : dropWs s = c :: r) (hc : isCSpace c = false) :
    scanStr none s = some (c :: r.takeWhile (fun x => !isCSpace x),
      (c :: r).drop (c :: r.takeWhile (fun x => !isCSpace x)).length) := by
  unfold scanStr
  rw [hd]
  simp [List.takeWhile_cons, hc]

/-- Helper: a token not beginning with `f` is not a `file://` URI. -/
theorem fileUriToPath_ne_f (c : Char) (l : List Char) (hc : c ≠ 'f') :
    fileUriToPath (c :: l) = none := by
  unfold fileUriToPath
  rw [if_neg]
  intro h
  rw [List.take_succ_cons] at h
  have : c = 'f' := by
    have h7 : ("file://".toList : List Char) = 'f' :: "ile://".toList := rfl
    rw [h7] at h
    exact (List.cons.injEq _ _ _ _ ▸ h).1
  exact hc this

/-- Helper: if a `%lf` conversion succeeds at some position, the `%s`
token read at the same position is not a `file://` URI — a string that
parses as a double cannot start with `f`. -/
theorem uri_not_double (r1 : List Char) (q : ℚ × List Char)
    (t : List Char × List Char)
    (hd : scanDouble r1 = some q) (hs : scanStr none r1 = some t) :
    fileUriToPath t.1 = none := by
  obtain ⟨c, r, hdr, hcs⟩ := scanDouble_head r1 q hd
  obtain ⟨hws, hf⟩ := headChar_not_space_not_f c hcs
  have htok := scanStr_none_head r1 c r hdr hws
  rw [hs] at htok
  have ht1 : t.1 = c :: r.takeWhile (fun x => !isCSpace x) := by
    have := Option.some.injEq _ _ ▸ htok
    exact congrArg Prod.fst this
  rw [ht1]
  exact fileUriToPath_ne_f c _ hf

/-- Helper: when the 9-field scan performed at least six conversions, the
6-field scan (re-run from the start of the line, with any incoming
fields) performs exactly six and its `%s` token — read where the `%lf`
succeeded — is not decodable as a `file://` URI. -/
theorem sscanf_exe6_of_exe9_ge6 (f g : ExeFields) (s : List Char)
    (h : 6 ≤ (sscanf_exe9 f s).1) :
    (sscanf_exe6 g s).1 = 6 ∧
    fileUriToPath ((sscanf_exe6 g s).2).filebuf = none := by
  obtain ⟨hc4, p, hp, q, hq⟩ := sscanf_exe9_ge6 f s h
  obtain ⟨hcount, hrest⟩ := scan4ints_count_rest f g s
  have hc4g : ¬(scan4ints g s).1 < 4 := by rw [← hcount]; exact hc4
  have hpg : scanInt (scan4ints g s).2.2 = some p := by rw [← hrest]; exact hp
  obtain ⟨c, r, hdr, hcs⟩ := scanDouble_head p.2 q hq
  obtain ⟨hws, hf⟩ := headChar_not_space_not_f c hcs
  have htok := scanStr_none_head p.2 c r hdr hws
  unfold sscanf_exe6
  rw [if_neg hc4g, hpg]
  dsimp only
  rw [htok]
  dsimp only
  refine ⟨rfl, ?_⟩
  exact fileUriToPath_ne_f c _ hf

/-- C8 (amended): the `EXE`-line parser tries the 9-field format first,
then 6, then 5; a line is a syntax error exactly when even the 5-field
prefix fails; any columns beyond the matched format are ignored (so
e.g. a 7-column line is accepted through the 6-field format).  The
5-field fallback resets `pool` to `POOL_OBSERVATION`, and on any accepted
line whose path field decodes as a `file://` URI and that did not match
the full 9-field format, the weighted counters
(`weighted_launches`, `raw_launches`, `total_duration`) are 0. -/
theorem claim_C8_amended (s : List Char) :
    (9 ≤ (sscanf_exe9 exeFields0 s).1 →
      read_exe_parse s = .ok (sscanf_exe9 exeFields0 s).2) ∧
    ((sscanf_exe9 exeFields0 s).1 < 9 →
      6 ≤ (sscanf_exe6 (sscanf_exe9 exeFields0 s).2 s).1 →
      read_exe_parse s = .ok (sscanf_exe6 (sscanf_exe9 exeFields0 s).2 s).2) ∧
    ((sscanf_exe9 exeFields0 s).1 < 9 →
      (sscanf_exe6 (sscanf_exe9 exeFields0 s).2 s).1 < 6 →
      5 ≤ (sscanf_exe5 (sscanf_exe6 (sscanf_exe9 exeFields0 s).2 s).2 s).1 →
      read_exe_parse s
        = .ok { (sscanf_exe5 (sscanf_exe6 (sscanf_exe9 exeFields0 s).2 s).2 s).2 with
                pool := POOL_OBSERVATION }) ∧
    ((sscanf_exe9 exeFields0 s).1 < 9 →
      (sscanf_exe6 (sscanf_exe9 exeFields0 s).2 s).1 < 6 →
      (sscanf_exe5 (sscanf_exe6 (sscanf_exe9 exeFields0 s).2 s).2 s).1 < 5 →
      read_exe_parse s = .synErr) ∧
    (∀ f path, read_exe_parse s = .ok f → fileUriToPath f.filebuf = some path →
      (sscanf_exe9 exeFields0 s).1 < 9 →
      f.weighted_launches = 0 ∧ f.raw_launches = 0 ∧ f.total_duration = 0) := by
  refine ⟨?_, ?_, ?_, ?_, ?_⟩
  · intro h9
    simp only [read_exe_parse, if_pos h9]
  · intro h9 h6
    simp only [read_exe_parse, if_neg (by omega : ¬9 ≤ (sscanf_exe9 exeFields0 s).1),
      if_pos h6]
  · intro h9 h6 h5
    simp only [read_exe_parse, if_neg (by omega : ¬9 ≤ (sscanf_exe9 exeFields0 s).1),
      if_neg (by omega : ¬6 ≤ (sscanf_exe6 (sscanf_exe9 exeFields0 s).2 s).1),
      if_neg (by omega :
        ¬(sscanf_exe5 (sscanf_exe6 (sscanf_exe9 exeFields0 s).2 s).2 s).1 < 5)]
  · intro h9 h6 h5
    simp only [read_exe_parse, if_neg (by omega : ¬9 ≤ (sscanf_exe9 exeFields0 s).1),
      if_neg (by omega : ¬6 ≤ (sscanf_exe6 (sscanf_exe9 exeFields0 s).2 s).1),
      if_pos h5]
  · intro f path hok huri h9
    simp only [read_exe_parse,
      if_neg (by omega : ¬9 ≤ (sscanf_exe9 exeFields0 s).1)] at hok
    by_cases h6 : 6 ≤ (sscanf_exe6 (sscanf_exe9 exeFields0 s).2 s).1
    · rw [if_pos h6] at hok
      have hf : f = (sscanf_exe6 (sscanf_exe9 exeFields0 s).2 s).2 :=
        (ExeParse.ok.injEq _ _ ▸ hok).symm
      subst hf
      by_cases h96 : 6 ≤ (sscanf_exe9 exeFields0 s).1
      · have := (sscanf_exe6_of_exe9_ge6 exeFields0 (sscanf_exe9 exeFields0 s).2 s h96).2
        rw [this] at huri
        exact absurd huri (by simp)
      · have hlow := sscanf_exe9_low exeFields0 s (by omega)
        have hun := sscanf_exe6_untouched (sscanf_exe9 exeFields0 s).2 s
        refine ⟨?_, ?_, ?_⟩
        · rw [hun.1, hlow.1]; rfl
        · rw [hun.2.1, hlow.2.1]; rfl
        · rw [hun.2.2, hlow.2.2]; rfl
    · rw [if_neg h6] at hok
      by_cases h5 : (sscanf_exe5 (sscanf_exe6 (sscanf_exe9 exeFields0 s).2 s).2 s).1 < 5
      · rw [if_pos h5] at hok
        exact absurd hok (by simp)
      · rw [if_neg h5] at hok
        have hf : f = { (sscanf_exe5 (sscanf_exe6 (sscanf_exe9 exeFields0 s).2 s).2 s).2 with
            pool := POOL_OBSERVATION } :=
          (ExeParse.ok.injEq _ _ ▸ hok).symm
        subst hf
        have h96 : (sscanf_exe9 exeFields0 s).1 ≤ 5 := by
          by_contra hgt
          exact absurd (sscanf_exe6_of_exe9_ge6 exeFields0 (sscanf_exe9 exeFields0 s).2 s
            (by omega)).1 (by omega)
        have hlow := sscanf_exe9_low exeFields0 s h96
        have hun6 := sscanf_exe6_untouched (sscanf_exe9 exeFields0 s).2 s
        have hun5 := sscanf_exe5_untouched (sscanf_exe6 (sscanf_exe9 exeFields0 s).2 s).2 s
        refine ⟨?_, ?_, ?_⟩
        · show (sscanf_exe5 _ s).2.weighted_launches = 0
          rw [hun5.1, hun6.1, hlow.1]; rfl
        · show (sscanf_exe5 _ s).2.raw_launches = 0
          rw [hun5.2.1, hun6.2.1, hlow.2.1]; rfl
        · show (sscanf_exe5 _ s).2.total_duration = 0
          rw [hun5.2.2, hun6.2.2, hlow.2.2]; rfl

/-- C8 counterexample: a *seven*-column `EXE` line — matching none of the
9-, 6-, 5-field widths — is not a syntax error: it is accepted through
the 6-field format with the seventh column silently ignored, and the full
reader registers the exe. -/
theorem claim_C8_counterexample :
    read_exe_parse "\t1\t2\t3\t4\t5\tfile:///x\t7\n".toList
      = .ok { i := 1, update_time := 2, time := 3, expansion := 4, pool := 5,
              weighted_launches := 0, raw_launches := 0, total_duration := 0,
              filebuf := "file:///x".toList } ∧
    (read_exe_model initReadCtx "\t1\t2\t3\t4\t5\tfile:///x\t7\n".toList).errmsg
      = none ∧
    ((read_exe_model initReadCtx "\t1\t2\t3\t4\t5\tfile:///x\t7\n".toList).g.exes.map
      ExeRec.path) = ["/x".toList] := by
  decide

/-- Witness for C8 (amended): a full 9-column line parses through the
9-field format. -/
theorem claim_C8_witness :
    read_exe_parse "\t1\t2\t3\t4\t5\t0.5\t6\t7\tfile:///y\n".toList
      = .ok (sscanf_exe9 exeFields0 "\t1\t2\t3\t4\t5\t0.5\t6\t7\tfile:///y\n".toList).2 :=
  (claim_C8_amended "\t1\t2\t3\t4\t5\t0.5\t6\t7\tfile:///y\n".toList).1 (by decide)

/-! ## Map reference counting (C9) -/

/-- Helper: attaching one reference to `m` at holder `i` adds one `m` to
the flattened reference multiset. -/
theorem flatten_updateAt_cons (m : ℕ) :
    ∀ (es : List (List ℕ)) (i : ℕ), i < es.length →
      ((updateAt i (fun l => m :: l) es).flatten).Perm (m :: es.flatten) := by
  intro es
  induction es with
  | nil => intro i h; simp at h
  | cons e es ih =>
    intro i h
    cases i with
    | zero =>
      simp only [updateAt, List.flatten_cons, List.cons_append]
      exact List.Perm.refl _
    | succ j =>
      have hp := ih j (by simpa using h)
      simp only [updateAt, List.flatten_cons]
      exact (hp.append_left e).trans List.perm_middle

/-- Helper: detaching one reference to `m` from holder `i` removes one
`m` from the flattened reference multiset. -/
theorem flatten_updateAt_erase (m : ℕ) :
    ∀ (es : List (List ℕ)) (i : ℕ) (l : List ℕ), es.get? i = some l → m ∈ l →
      (m :: (updateAt i (fun l2 => l2.erase m) es).flatten).Perm es.flatten := by
  intro es
  induction es with
  | nil => intro i l h; simp at h
  | cons e es ih =>
    intro i l hget hm
    cases i with
    | zero =>
      have he : e = l := by
        have h0 : some e = some l := hget
        injection h0
      have hm2 : m ∈ e := by rw [he]; exact hm
      simp only [updateAt, List.flatten_cons]
      have hper : List.Perm ((m :: e.erase m) ++ es.flatten) (e ++ es.flatten) :=
        (List.perm_cons_erase hm2).symm.append_right _
      simpa using hper
    | succ j =>
      have hp := ih j l (by simpa using hget) hm
      simp only [updateAt, List.flatten_cons]
      exact (List.perm_middle.symm).trans (hp.append_left e)

/-- Helper: dropping an empty holder changes nothing in the flattened
reference multiset. -/
theorem flatten_eraseIdx_nil :
    ∀ (es : List (List ℕ)) (i : ℕ), es.get? i = some [] →
      (es.eraseIdx i).flatten = es.flatten := by
  intro es
  induction es with
  | nil => intro i h; simp at h
  | cons e es ih =>
    intro i hget
    cases i with
    | zero =>
      have he : e = [] := by
        have : some e = some ([] : List ℕ) := hget
        injection this
      subst he
      simp
    | succ j =>
      simp only [List.eraseIdx_cons_succ, List.flatten_cons]
      rw [ih j (by simpa using hget)]

/-- Helper: bumping a refcount does not change the key list. -/
theorem keys_map_bump (maps : List (ℕ × ℤ)) (m : ℕ) :
    (maps.map fun p => if p.1 = m then (p.1, p.2 + 1) else p).map Prod.fst
      = maps.map Prod.fst := by
  rw [List.map_map]
  apply List.map_congr_left
  intro p _
  by_cases h : p.1 = m <;> simp [h]

/-- Helper: bumping a refcount does not change key membership. -/
theorem hasKey_map_bump (maps : List (ℕ × ℤ)) (m x : ℕ) :
    hasKey (maps.map fun p => if p.1 = m then (p.1, p.2 + 1) else p) x
      = hasKey maps x := by
  unfold hasKey
  rw [List.any_map]
  congr 1
  funext p
  by_cases h : p.1 = m <;> simp [h, Function.comp]

/-- Helper: an absent key is held by no table entry. -/
theorem hasKey_false_forall (maps : List (ℕ × ℤ)) (m : ℕ)
    (hk : hasKey maps m = false) : ∀ p ∈ maps, p.1 ≠ m := by
  intro p hp
  have := (List.any_eq_false.1 hk) p hp
  simpa using this

/-- Helper: key membership as list membership of the key list. -/
theorem hasKey_iff_mem (maps : List (ℕ × ℤ)) (m : ℕ) :
    hasKey maps m = true ↔ ∃ p ∈ maps, p.1 = m := by
  unfold hasKey
  rw [List.any_eq_true]
  constructor
  · rintro ⟨p, hp, he⟩
    exact ⟨p, hp, by simpa using he⟩
  · rintro ⟨p, hp, he⟩
    exact ⟨p, hp, by simpa using he⟩

/-- Helper: unref only removes keys, so the key list stays duplicate-free. -/
theorem keys_mapUnref_sublist (maps : List (ℕ × ℤ)) (m : ℕ) :
    ((mapUnref maps m).map Prod.fst).Sublist (maps.map Prod.fst) := by
  induction maps with
  | nil => simp [mapUnref]
  | cons p rest ih =>
    simp only [mapUnref, List.filterMap_cons] at ih ⊢
    by_cases h1 : p.1 = m
    · rw [if_pos h1]
      by_cases h2 : p.2 = 1
      · rw [if_pos h2]
        exact ih.trans (List.sublist_cons_self _ _)
      · rw [if_neg h2]
        simpa using ih.cons₂ p.1
    · rw [if_neg h1]
      simpa using ih.cons₂ p.1

/-- Helper: unref leaves entries with other keys alone. -/
theorem hasKey_mapUnref_ne (maps : List (ℕ × ℤ)) (m x : ℕ) (hx : x ≠ m) :
    hasKey (mapUnref maps m) x = hasKey maps x := by
  induction maps with
  | nil => simp [mapUnref]
  | cons p rest ih =>
    simp only [mapUnref, List.filterMap_cons] at ih ⊢
    by_cases h1 : p.1 = m
    · rw [if_pos h1]
      have hpx : (p.1 == x) = false := by
        simp [h1]
        omega
      by_cases h2 : p.2 = 1
      · rw [if_pos h2]
        simp [hasKey, hpx] at ih ⊢
        exact ih
      · rw [if_neg h2]
        simp [hasKey, hpx] at ih ⊢
        exact ih
    · rw [if_neg h1]
      simp [hasKey] at ih ⊢
      rw [ih]

/-- Helper: unref keeps an entry for `m` when its refcount was not 1. -/
theorem hasKey_mapUnref_self (maps : List (ℕ × ℤ)) (m : ℕ) (p0 : ℕ × ℤ)
    (hp0 : p0 ∈ maps) (h1 : p0.1 = m) (h2 : p0.2 ≠ 1) :
    hasKey (mapUnref maps m) m = true := by
  unfold hasKey
  rw [List.any_eq_true]
  refine ⟨(p0.1, p0.2 - 1), ?_, by simp [h1]⟩
  exact List.mem_filterMap.2 ⟨p0, hp0, by rw [if_pos h1, if_neg h2]⟩

/-- Helper: shape of the entries that survive an unref. -/
theorem mem_mapUnref (maps : List (ℕ × ℤ)) (m : ℕ) (q : ℕ × ℤ)
    (h : q ∈ mapUnref maps m) :
    ∃ p ∈ maps, (p.1 ≠ m ∧ q = p) ∨ (p.1 = m ∧ p.2 ≠ 1 ∧ q = (p.1, p.2 - 1)) := by
  obtain ⟨p, hp, hf⟩ := List.mem_filterMap.1 h
  refine ⟨p, hp, ?_⟩
  by_cases h1 : p.1 = m
  · rw [if_pos h1] at hf
    by_cases h2 : p.2 = 1
    · rw [if_pos h2] at hf
      cases hf
    · rw [if_neg h2] at hf
      right
      exact ⟨h1, h2, (Option.some.inj hf).symm⟩
  · rw [if_neg h1] at hf
    left
    exact ⟨h1, (Option.some.inj hf).symm⟩

/-- C9: starting from the empty state, every sequence of the state
module's reference operations — creating a holder, attaching an exemap
(`kp_exemap_new` / `kp_exe_map_new`, which `kp_map_ref`s the map),
detaching one (`kp_exemap_free`, which `kp_map_unref`s it), and dropping
an emptied holder (`kp_exe_free` is detach of each exemap followed by
the drop; the loader's `rc.maps` table is one more holder) — maintains:
every registered map's refcount equals the number of live references to
it and is at least 1 (so registration happens exactly on 0→1 and the
entry disappears exactly on reaching 0), every referenced map is
registered, and registered ids are unique. -/
theorem claim_C9_refcount_invariant (s : RCState) (h : RCReach s) : refcountInv s := by
  induction h with
  | init => exact ⟨by simp, by simp, by simp⟩
  | @step s t hr hs ih =>
    obtain ⟨h1, h2, h3⟩ := ih
    cases hs with
    | newExe =>
      unfold refcountInv
      dsimp only
      refine ⟨?_, ?_, ?_⟩
      · intro p hp
        simpa using h1 p hp
      · intro m hm
        simp only [List.flatten_cons, List.nil_append] at hm
        exact h2 m hm
      · exact h3
    | attach i m hlt =>
      have hperm := flatten_updateAt_cons m s.exes i hlt
      unfold refcountInv
      dsimp only
      by_cases hk : hasKey s.maps m = true
      · refine ⟨?_, ?_, ?_⟩
        · intro q hq
          simp only [mapRef, hk, if_true] at hq
          obtain ⟨p, hp, hbump⟩ := List.mem_map.1 hq
          have hcnt := h1 p hp
          have hc1 := hcnt.1
          have hc2 := hcnt.2
          by_cases hpm : p.1 = m
          · rw [if_pos hpm] at hbump
            subst hbump
            refine ⟨?_, ?_⟩
            · show p.2 + 1 = _
              rw [hperm.count_eq, List.count_cons]
              have hif : (m == p.1) = true := by simp [hpm]
              rw [hif]
              simp only [if_pos]
              push_cast
              omega
            · show (1 : ℤ) ≤ p.2 + 1
              omega
          · rw [if_neg hpm] at hbump
            subst hbump
            refine ⟨?_, hc2⟩
            rw [hperm.count_eq, List.count_cons]
            have hif : (m == p.1) = false := by
              simp only [beq_eq_false_iff_ne, ne_eq]
              exact fun hh => hpm hh.symm
            rw [hif]
            simpa using hc1
        · intro x hx
          have hx2 : x ∈ m :: s.exes.flatten := hperm.mem_iff.1 hx
          simp only [mapRef, hk, if_true]
          rw [hasKey_map_bump]
          rcases List.mem_cons.1 hx2 with hxm | hxf
          · rw [hxm]
            exact hk
          · exact h2 x hxf
        · simp only [mapRef, hk, if_true]
          rw [keys_map_bump]
          exact h3
      · have hkf : hasKey s.maps m = false := by
          cases hb : hasKey s.maps m
          · rfl
          · exact absurd hb hk
        have hnot : m ∉ s.exes.flatten := fun hmem => hk (h2 m hmem)
        refine ⟨?_, ?_, ?_⟩
        · intro q hq
          simp only [mapRef, hkf, Bool.false_eq_true, if_false] at hq
          rcases List.mem_cons.1 hq with hq1 | hq2
          · subst hq1
            refine ⟨?_, ?_⟩
            · show (1 : ℤ) = _
              rw [hperm.count_eq, List.count_cons]
              rw [List.count_eq_zero.2 hnot]
              simp
            · show (1 : ℤ) ≤ 1
              norm_num
          · have hcnt := h1 q hq2
            have hqm : q.1 ≠ m := hasKey_false_forall s.maps m hkf q hq2
            refine ⟨?_, hcnt.2⟩
            rw [hperm.count_eq, List.count_cons]
            have hif : (m == q.1) = false := by
              simp only [beq_eq_false_iff_ne, ne_eq]
              exact fun hh => hqm hh.symm
            rw [hif]
            simpa using hcnt.1
        · intro x hx
          have hx2 : x ∈ m :: s.exes.flatten := hperm.mem_iff.1 hx
          simp only [mapRef, hkf, Bool.false_eq_true, if_false]
          rcases List.mem_cons.1 hx2 with hxm | hxf
          · subst hxm
            simp [hasKey]
          · have hh := h2 x hxf
            simp only [hasKey, List.any_cons] at hh ⊢
            rw [hh]
            simp
        · simp only [mapRef, hkf, Bool.false_eq_true, if_false, List.map_cons]
          refine List.Nodup.cons ?_ h3
          intro hmem
          obtain ⟨p, hp, hpm⟩ := List.mem_map.1 hmem
          exact hasKey_false_forall s.maps m hkf p hp hpm
    | detach i m l hget hm =>
      have hperm := flatten_updateAt_erase m s.exes i l hget hm
      have hmf : m ∈ s.exes.flatten :=
        List.mem_flatten.2 ⟨l, List.get?_mem hget, hm⟩
      have hkm : hasKey s.maps m = true := h2 m hmf
      obtain ⟨pm, hpm, hpm1⟩ := (hasKey_iff_mem s.maps m).1 hkm
      have hcm := h1 pm hpm
      have hcountm : ∀ x, s.exes.flatten.count x =
          (updateAt i (fun l2 => l2.erase m) s.exes).flatten.count x
            + if m == x then 1 else 0 := by
        intro x
        rw [← hperm.count_eq x, List.count_cons]
      unfold refcountInv
      dsimp only
      refine ⟨?_, ?_, ?_⟩
      · intro q hq
        obtain ⟨p, hp, hcase⟩ := mem_mapUnref s.maps m q hq
        have hcnt := h1 p hp
        have hc1 := hcnt.1
        have hc2 := hcnt.2
        rcases hcase with ⟨hne, hqp⟩ | ⟨heq, hne1, hqp⟩
        · rw [hqp]
          refine ⟨?_, hc2⟩
          have hcx := hcountm p.1
          have hif : (m == p.1) = false := by
            simp only [beq_eq_false_iff_ne, ne_eq]
            exact fun hh => hne hh.symm
          rw [hif] at hcx
          simp at hcx
          rw [hc1, hcx]
        · have hcx := hcountm m
          simp at hcx
          have hc1m : p.2 = (List.count m s.exes.flatten : ℤ) := by rw [hc1, heq]
          rw [hqp]
          constructor
          · show p.2 - 1 = _
            rw [heq]
            omega
          · show (1 : ℤ) ≤ p.2 - 1
            omega
      · intro x hx
        have hxold : x ∈ s.exes.flatten :=
          hperm.mem_iff.1 (List.mem_cons_of_mem m hx)
        by_cases hxm : x = m
        · subst hxm
          have hcnt1 : 1 ≤ (updateAt i (fun l2 => l2.erase x) s.exes).flatten.count x := by
            have := List.count_pos_iff.2 hx
            omega
          have hcx := hcountm x
          simp at hcx
          have hpm2 : pm.2 ≠ 1 := by
            intro h1x
            have hcc := hcm.1
            rw [h1x, hpm1] at hcc
            omega
          exact hasKey_mapUnref_self s.maps x pm hpm hpm1 hpm2
        · rw [hasKey_mapUnref_ne s.maps m x hxm]
          exact h2 x hxold
      · exact (keys_mapUnref_sublist s.maps m).nodup h3
    | dropExe i hget =>
      have hflat := flatten_eraseIdx_nil s.exes i hget
      unfold refcountInv
      dsimp only
      refine ⟨?_, ?_, ?_⟩
      · intro p hp
        rw [hflat]
        exact h1 p hp
      · intro x hx
        rw [hflat] at hx
        exact h2 x hx
      · exact h3

/-- Witness for C9: a concrete reachable state (one holder, one map with
one reference). -/
theorem claim_C9_witness : refcountInv ⟨[[5]], [(5, 1)]⟩ :=
  claim_C9_refcount_invariant _
    (RCReach.step (RCReach.step RCReach.init (RCStep.newExe _))
      (RCStep.attach _ 0 5 (by decide)))

end Preheat
